import Mathlib

/-!
Verification of the temporal computation engine of mcp-datetimeday
(src/mcp_datetimeday/server.py), a small calendar/time toolkit exposing five
operations: get_datetime, relative_time, days_in_month, convert_time,
get_week_year.

The Python code delegates its calendar arithmetic to CPython's datetime
module.  The shallow embedding below therefore models:
  * the calendar core exactly as CPython's datetime implements it
    (_ymd2ord / _ord2ymd / isocalendar / isleap / monthrange);
  * strptime for the three accepted format strings, following CPython's
    _strptime regular expressions for %Y %m %d %H %M %S with its
    whole-string-match check ("unconverted data remains");
  * timezones abstractly: a Zone supplies the offset ZoneInfo.utcoffset
    reports for a naive wall-clock time (fold=0) and the offset
    ZoneInfo.fromutc applies at a UTC instant; the IANA database is an
    environment parameter `env : String → Option Zone`;
  * each operation as a function returning `Except String (List (String ×
    JValue))`: `.ok` is the mapping the Python function returns (fields in
    source order), `.error` marks an exception escaping the function
    (e.g. ValueError from the datetime constructor for out-of-range years).
-/

namespace DateTimeDay

/-! ## Calendar core, after CPython Lib/datetime.py -/

/-- CPython `_days_in_month` table (February entry 28, leap handled apart). -/
def daysInMonthTab : Nat → Nat
  | 1 => 31 | 2 => 28 | 3 => 31 | 4 => 30 | 5 => 31 | 6 => 30
  | 7 => 31 | 8 => 31 | 9 => 30 | 10 => 31 | 11 => 30 | 12 => 31
  | _ => 0

/-- CPython `_DAYS_BEFORE_MONTH` table. -/
def daysBeforeMonthTab : Nat → Nat
  | 1 => 0 | 2 => 31 | 3 => 59 | 4 => 90 | 5 => 120 | 6 => 151
  | 7 => 181 | 8 => 212 | 9 => 243 | 10 => 273 | 11 => 304 | 12 => 334
  | _ => 0

/-- `calendar.isleap` / the leap-year formula written out in the source:
`year % 4 == 0 and (year % 100 != 0 or year % 400 == 0)`. -/
def isLeapYearN (y : Nat) : Bool :=
  y % 4 == 0 && (y % 100 != 0 || y % 400 == 0)

/-- Days in a month per the Gregorian calendar (CPython `monthrange` /
`_days_in_month`). -/
def daysInMonthN (y m : Nat) : Nat :=
  if m = 2 && isLeapYearN y then 29 else daysInMonthTab m

/-- CPython `_days_before_year`: days before January 1 of year `y` counted
from ordinal 0 (so the proleptic-Gregorian ordinal of Jan 1 year y is this
plus 1). -/
def daysBeforeYear (y : Nat) : Nat :=
  let Y := y - 1
  Y * 365 + Y / 4 - Y / 100 + Y / 400

/-- CPython `_days_before_month` with the leap adjustment. -/
def daysBeforeMonthOf (y m : Nat) : Nat :=
  daysBeforeMonthTab m + (if 2 < m && isLeapYearN y then 1 else 0)

/-- CPython `_ymd2ord`: proleptic Gregorian ordinal, day 1 = 0001-01-01. -/
def ymd2ord (y m d : Nat) : Nat :=
  daysBeforeYear y + daysBeforeMonthOf y m + d

/-- The month/day extraction at the end of CPython `_ord2ymd`: `r` is the
0-based day of the year, `leap` its leap flag; the month is guessed as
`(r + 50) >> 5` and corrected downward at most once. -/
def monthStage (r : Nat) (leap : Bool) : Nat × Nat :=
  let month := (r + 50) / 32
  let preceding := daysBeforeMonthTab month + (if 2 < month && leap then 1 else 0)
  if r < preceding then
    let month' := month - 1
    let preceding' := preceding - (daysInMonthTab month' + (if month' = 2 && leap then 1 else 0))
    (month', r - preceding' + 1)
  else
    (month, r - preceding + 1)

/-- CPython `_ord2ymd`: ordinal back to (year, month, day).  The divmod
chain peels 400-year, 100-year, 4-year and 1-year blocks; the `n1 = 4 ∨
n100 = 4` case is the trailing leap day (Dec 31 of a leap year). -/
def ord2ymd (N : Nat) : Nat × Nat × Nat :=
  let n := N - 1
  let n400 := n / 146097
  let r400 := n % 146097
  let n100 := r400 / 36524
  let r100 := r400 % 36524
  let n4 := r100 / 1461
  let r4 := r100 % 1461
  let n1 := r4 / 365
  let r := r4 % 365
  if n1 = 4 || n100 = 4 then
    (n400 * 400 + n100 * 100 + n4 * 4 + n1, 12, 31)
  else
    let year := n400 * 400 + n100 * 100 + n4 * 4 + n1 + 1
    let leap := n1 == 3 && (n4 != 24 || n100 == 3)
    let md := monthStage r leap
    (year, md.1, md.2)

/-- ISO weekday, 1 = Monday .. 7 = Sunday (CPython `date.isoweekday`). -/
def isoWeekdayYMD (y m d : Nat) : Nat :=
  (ymd2ord y m d - 1) % 7 + 1

/-- CPython `_isoweek1monday`: ordinal of the Monday starting ISO week 1. -/
def isoweek1monday (y : Nat) : Int :=
  let firstday := ymd2ord y 1 1
  let firstweekday := (firstday + 6) % 7
  let wk : Int := (firstday : Int) - firstweekday
  if 3 < firstweekday then wk + 7 else wk

/-- CPython `date.isocalendar`, returning (iso_year, iso_week). -/
def isoCalendarOf (y m d : Nat) : Int × Int :=
  let today : Int := ymd2ord y m d
  let w1m := isoweek1monday y
  let week := (today - w1m) / 7
  if week < 0 then
    let w1m' := isoweek1monday (y - 1)
    (((y : Int) - 1), (today - w1m') / 7 + 1)
  else if 52 ≤ week && isoweek1monday (y + 1) ≤ today then
    ((y : Int) + 1, 1)
  else
    ((y : Int), week + 1)

/-- `timetuple().tm_yday`: 1-based day of the year. -/
def dayOfYearOf (y m d : Nat) : Nat :=
  daysBeforeMonthOf y m + d

/-! ## Naive datetimes and their second counts -/

/-- A naive CPython `datetime` at whole-second granularity (the engine never
produces sub-second values on the paths modelled here). -/
structure DateTime where
  year : Nat
  month : Nat
  day : Nat
  hour : Nat
  minute : Nat
  second : Nat
deriving DecidableEq, Repr

/-- Ordinal of the Unix epoch 1970-01-01 (= `ymd2ord 1970 1 1`). -/
def epochOrd : Nat := 719163

/-- Seconds since the Unix epoch of a naive datetime read as UTC. -/
def toSeconds (dt : DateTime) : Int :=
  ((ymd2ord dt.year dt.month dt.day : Int) - epochOrd) * 86400 +
    (dt.hour * 3600 + dt.minute * 60 + dt.second)

/-- Inverse of `toSeconds` (meaningful for instants within year 1..9999). -/
def ofSeconds (z : Int) : DateTime :=
  let days := z / 86400
  let sod := (z % 86400).toNat
  let o := (days + epochOrd).toNat
  let p := ord2ymd o
  ⟨p.1, p.2.1, p.2.2, sod / 3600, sod % 3600 / 60, sod % 60⟩

/-- First representable instant, seconds of `datetime.min` (0001-01-01). -/
def minSec : Int := toSeconds ⟨1, 1, 1, 0, 0, 0⟩

/-- Last representable instant, seconds of `datetime.max` at whole seconds
(9999-12-31 23:59:59). -/
def maxSec : Int := toSeconds ⟨9999, 12, 31, 23, 59, 59⟩

/-! ## Rendering (strftime fragments used by the source) -/

/-- The digit character for `n ≤ 9`. -/
def digitChar (n : Nat) : Char := Char.ofNat (48 + n)

def pad2L (n : Nat) : List Char := [digitChar (n / 10), digitChar (n % 10)]

def pad4L (n : Nat) : List Char :=
  [digitChar (n / 1000), digitChar (n / 100 % 10), digitChar (n / 10 % 10), digitChar (n % 10)]

/-- Unpadded decimal year.  `strftime("%Y")` on the platform the code
targets (CPython delegating to glibc) does not zero-pad the year, so year
999 renders as "999"; `%m %d %H %M %S` are zero-padded, and
`datetime.isoformat` pads the year to four digits itself.  `datetime`
years never exceed 9999, so four explicit width cases cover the range. -/
def yearDigitsL (y : Nat) : List Char :=
  if y < 10 then [digitChar y]
  else if y < 100 then [digitChar (y / 10), digitChar (y % 10)]
  else if y < 1000 then [digitChar (y / 100), digitChar (y / 10 % 10), digitChar (y % 10)]
  else pad4L y

def renderDateL (y m d : Nat) : List Char :=
  yearDigitsL y ++ '-' :: (pad2L m ++ '-' :: pad2L d)

def renderTimeL (h mi s : Nat) : List Char :=
  pad2L h ++ ':' :: (pad2L mi ++ ':' :: pad2L s)

/-- `strftime("%Y-%m-%d")`. -/
def renderDate (y m d : Nat) : String := ⟨renderDateL y m d⟩

/-- `strftime("%H:%M:%S")`. -/
def renderTime (h mi s : Nat) : String := ⟨renderTimeL h mi s⟩

/-- `strftime("%Y-%m-%d %H:%M:%S")` of a naive datetime. -/
def renderDT (dt : DateTime) : String :=
  ⟨renderDateL dt.year dt.month dt.day ++ ' ' :: renderTimeL dt.hour dt.minute dt.second⟩

def dayNames : List String :=
  ["Monday", "Tuesday", "Wednesday", "Thursday", "Friday", "Saturday", "Sunday"]

def monthNames : List String :=
  ["January", "February", "March", "April", "May", "June", "July", "August",
   "September", "October", "November", "December"]

/-- `strftime("%A")` from a date. -/
def dayNameYMD (y m d : Nat) : String :=
  dayNames.getD (isoWeekdayYMD y m d - 1) ""

/-- `strftime("%A")` of a naive datetime. -/
def dayNameOf (dt : DateTime) : String := dayNameYMD dt.year dt.month dt.day

/-- `strftime("%B")`. -/
def monthName (m : Nat) : String := monthNames.getD (m - 1) ""

/-- `strftime("%z")` of a UTC offset in seconds: sign, HHMM, and seconds
only when nonzero. -/
def zOffsetStr (off : Int) : String :=
  let a := off.natAbs
  let base := ⟨(if off < 0 then '-' else '+') :: (pad2L (a / 3600) ++ pad2L (a % 3600 / 60))⟩
  if a % 60 ≠ 0 then base ++ ⟨pad2L (a % 60)⟩ else base

/-- `isoformat` offset suffix: ±HH:MM, with :SS only when nonzero. -/
def isoOffsetStr (off : Int) : String :=
  let a := off.natAbs
  let base := ⟨(if off < 0 then '-' else '+') :: (pad2L (a / 3600) ++ ':' :: pad2L (a % 3600 / 60))⟩
  if a % 60 ≠ 0 then base ++ ⟨':' :: pad2L (a % 60)⟩ else base

/-- `datetime.isoformat()` of an aware instant with wall-clock seconds
`wall` and UTC offset `off`. -/
def isoFormatStr (wall off : Int) : String :=
  let dt := ofSeconds wall
  ⟨pad4L dt.year ++ '-' :: (pad2L dt.month ++ '-' :: pad2L dt.day)⟩ ++ "T" ++
    renderTime dt.hour dt.minute dt.second ++ isoOffsetStr off

/-- `strftime("%A, %B %d, %Y at %I:%M %p")`. -/
def humanFormatStr (wall : Int) : String :=
  let dt := ofSeconds wall
  let h12 := if dt.hour % 12 = 0 then 12 else dt.hour % 12
  dayNameOf dt ++ ", " ++ monthName dt.month ++ " " ++ ⟨pad2L dt.day⟩ ++ ", " ++
    ⟨yearDigitsL dt.year⟩ ++ " at " ++ ⟨pad2L h12⟩ ++ ":" ++ ⟨pad2L dt.minute⟩ ++ " " ++
    (if dt.hour < 12 then "AM" else "PM")

/-! ## strptime for the three accepted formats

CPython's `_strptime` compiles each format to a regular expression
(`%Y` ↦ `\d\d\d\d`, `%m` ↦ `1[0-2]|0[1-9]|[1-9]`, `%d` ↦
`3[01]|[12]\d|0[1-9]|[1-9]`, `%H` ↦ `2[0-3]|[0-1]\d|\d`, `%M` ↦
`[0-5]\d|\d`, `%S` ↦ `6[0-1]|[0-5]\d|\d`), matches it against the string
and rejects the parse when `len(data_string) != found.end()` — i.e. only a
match of the entire string is accepted.  Because every numeric token is
followed by a non-digit literal or the end of the string, the regex
backtracking from a two-digit alternative into a one-digit one can never
rescue an overall match, so the committed two-digit-first readers below are
equivalent to the regexes.  `datetime.strptime` finally constructs a
`datetime`, which rejects day-out-of-month, second = 60/61 and year 0 with
a ValueError that the source catches like any non-match. -/

def digitVal (c : Char) : Nat := c.toNat - 48

/-- The `\d` character class (identical to `Char.isDigit`, stated on code
points for easier arithmetic). -/
def isDigitC (c : Char) : Bool := 48 ≤ c.toNat && c.toNat ≤ 57

/-- Exactly four digits (`%Y`). -/
def tok4 : List Char → Option (Nat × List Char)
  | c1 :: c2 :: c3 :: c4 :: rest =>
    if isDigitC c1 && isDigitC c2 && isDigitC c3 && isDigitC c4 then
      some (((digitVal c1 * 10 + digitVal c2) * 10 + digitVal c3) * 10 + digitVal c4, rest)
    else none
  | _ => none

/-- Two-digits-first-then-one-digit numeric token; `valid2`/`valid1` encode
which two-digit / one-digit values the regex alternatives accept. -/
def tok21 (valid2 valid1 : Nat → Bool) : List Char → Option (Nat × List Char)
  | c1 :: c2 :: rest =>
    if isDigitC c1 && isDigitC c2 && valid2 (digitVal c1 * 10 + digitVal c2) then
      some (digitVal c1 * 10 + digitVal c2, rest)
    else if isDigitC c1 && valid1 (digitVal c1) then
      some (digitVal c1, c2 :: rest)
    else none
  | [c1] =>
    if isDigitC c1 && valid1 (digitVal c1) then some (digitVal c1, []) else none
  | [] => none

def expectC (c : Char) : List Char → Option (List Char)
  | x :: rest => if x = c then some rest else none
  | [] => none

def monthV2 (v : Nat) : Bool := 1 ≤ v && v ≤ 12
def dayV2 (v : Nat) : Bool := 1 ≤ v && v ≤ 31
def oneNine (v : Nat) : Bool := 1 ≤ v
def hourV2 (v : Nat) : Bool := v ≤ 23
def minuteV2 (v : Nat) : Bool := v ≤ 59
def secondV2 (v : Nat) : Bool := v ≤ 61
def anyDigit (_ : Nat) : Bool := true

/-- Raw field values matched by the regex, before `datetime` validation. -/
structure RawDT where
  y : Nat
  mo : Nat
  d : Nat
  h : Nat
  mi : Nat
  s : Nat
deriving DecidableEq, Repr

def parseDatePart (l : List Char) : Option (Nat × Nat × Nat × List Char) :=
  match tok4 l with
  | none => none
  | some (y, l1) =>
    match expectC '-' l1 with
    | none => none
    | some l2 =>
      match tok21 monthV2 oneNine l2 with
      | none => none
      | some (mo, l3) =>
        match expectC '-' l3 with
        | none => none
        | some l4 =>
          match tok21 dayV2 oneNine l4 with
          | none => none
          | some (d, l5) => some (y, mo, d, l5)

def parseTimePart (l : List Char) : Option (Nat × Nat × Nat × List Char) :=
  match tok21 hourV2 anyDigit l with
  | none => none
  | some (h, l1) =>
    match expectC ':' l1 with
    | none => none
    | some l2 =>
      match tok21 minuteV2 anyDigit l2 with
      | none => none
      | some (mi, l3) =>
        match expectC ':' l3 with
        | none => none
        | some l4 =>
          match tok21 secondV2 anyDigit l4 with
          | none => none
          | some (s, l5) => some (h, mi, s, l5)

/-- The three format strings appearing in the source. -/
inductive Fmt
  | ymd        -- "%Y-%m-%d"
  | ymdT       -- "%Y-%m-%dT%H:%M:%S"
  | ymdSpace   -- "%Y-%m-%d %H:%M:%S"
deriving DecidableEq, Repr

/-- The regex match for one format, returning raw fields and the unconsumed
remainder of the string. -/
def parseDateTimeChars (sep : Char) (l : List Char) : Option (RawDT × List Char) :=
  match parseDatePart l with
  | none => none
  | some (y, mo, d, l1) =>
    match expectC sep l1 with
    | none => none
    | some l2 =>
      match parseTimePart l2 with
      | none => none
      | some (h, mi, s, l3) => some (⟨y, mo, d, h, mi, s⟩, l3)

def parseChars : Fmt → List Char → Option (RawDT × List Char)
  | .ymd, l =>
    match parseDatePart l with
    | none => none
    | some (y, mo, d, l1) => some (⟨y, mo, d, 0, 0, 0⟩, l1)
  | .ymdT, l => parseDateTimeChars 'T' l
  | .ymdSpace, l => parseDateTimeChars ' ' l

/-- `datetime.strptime(s, fmt)` wrapped in `try/except ValueError`: the
regex must match the ENTIRE string (empty remainder), and the datetime
constructor must accept the fields (year ≥ 1, day within the month,
second ≤ 59; the regex already bounds the rest). -/
def parseWithFormat (f : Fmt) (s : String) : Option DateTime :=
  match parseChars f s.data with
  | some (r, []) =>
    if 1 ≤ r.y && r.d ≤ daysInMonthN r.y r.mo && r.s ≤ 59 then
      some ⟨r.y, r.mo, r.d, r.h, r.mi, r.s⟩
    else none
  | _ => none

/-- The `for fmt in formats: try: … break; except ValueError: continue`
loop: first format that parses wins. -/
def firstParse : List Fmt → String → Option DateTime
  | [], _ => none
  | f :: rest, s =>
    match parseWithFormat f s with
    | some dt => some dt
    | none => firstParse rest s

/-- Format list of `relative_time`. -/
def rtFormats : List Fmt := [.ymd, .ymdT, .ymdSpace]

/-- Format list of `convert_time`. -/
def ctFormats : List Fmt := [.ymdSpace, .ymdT, .ymd]

/-! ## Result mappings -/

/-- Values appearing in the dictionaries the five operations return. -/
inductive JValue
  | str (s : String)
  | int (n : Int)
  | bool (b : Bool)
  | obj (fields : List (String × JValue))

/-- A returned mapping, fields in the order the Python dict literal lists
them. -/
abbrev ResultMap := List (String × JValue)

/-- Dictionary lookup. -/
def getField (m : ResultMap) (k : String) : Option JValue :=
  (m.find? (fun p => p.1 == k)).map (fun p => p.2)

/-- `Except.error` marks an exception escaping the Python function
(an uncaught fault); `Except.ok` is the dictionary it returns. -/
abbrev OpResult := Except String ResultMap

/-! ## Timezones

`ZoneInfo` objects are abstracted by the two offset views CPython actually
consults: `utcoffset(dt)` on a wall-clock datetime carrying the zone
(fold = 0, which is what `datetime.replace(tzinfo=...)` and strptime
produce), and the offset `fromutc` applies at a given UTC instant.  The
IANA database is the environment `env`. -/

structure Zone where
  /-- `zone.utcoffset(wall)` in seconds for a naive wall time (fold 0). -/
  offsetAtLocal : Int → Int
  /-- offset (seconds) `zone.fromutc` applies at a UTC instant. -/
  offsetAtUtc : Int → Int
  /-- `str(zone)`. -/
  zstr : String

/-- `timezone.utc`. -/
def utcZone : Zone := ⟨fun _ => 0, fun _ => 0, "UTC"⟩

/-- `ZoneInfo(name) if name != "UTC" else timezone.utc`, with a lookup
failure (`ZoneInfoNotFoundError` etc.) as `none`. -/
def resolveZone (env : String → Option Zone) (name : String) : Option Zone :=
  if name ≠ "UTC" then env name else some utcZone

/-- Python truthiness of an optional string argument: `None` and `""` are
falsy. -/
def truthyStr : Option String → Bool
  | none => false
  | some s => s ≠ ""

/-- Python truthiness of an optional int argument: `None` and `0` are
falsy. -/
def truthyInt : Option Int → Bool
  | none => false
  | some n => n ≠ 0

/-! ## The five operations -/

/-- Body shared by the branches of `get_datetime` once the zone is fixed:
`now = datetime.now(zone)` with `nowUtc` the current Unix second. -/
def gdBody (zone : Zone) (nowUtc : Int) (format : Option String) : OpResult :=
  let off := zone.offsetAtUtc nowUtc
  let wall := nowUtc + off
  let wdt := ofSeconds wall
  let day_of_week := dayNameOf wdt
  if format == some "iso8601" then
    .ok [("day_of_week", .str day_of_week), ("iso8601", .str (isoFormatStr wall off))]
  else if format == some "unix" then
    .ok [("day_of_week", .str day_of_week), ("unix_timestamp", .int nowUtc)]
  else if format == some "human" then
    .ok [("day_of_week", .str day_of_week), ("human_readable", .str (humanFormatStr wall))]
  else
    .ok [("day_of_week", .str day_of_week),
         ("date", .str (renderDate wdt.year wdt.month wdt.day)),
         ("time", .str (renderTime wdt.hour wdt.minute wdt.second)),
         ("timezone", .str zone.zstr),
         ("utc_offset", .str (zOffsetStr off)),
         ("iso8601", .str (isoFormatStr wall off)),
         ("unix_timestamp", .int nowUtc),
         ("human_readable", .str (humanFormatStr wall))]

/-- `get_datetime(tz, format)`.  `localZone` models the zone
`datetime.now().astimezone()` attaches when `tz` is absent or falsy. -/
def get_datetime (env : String → Option Zone) (localZone : Zone) (nowUtc : Int)
    (tz format : Option String) : OpResult :=
  if truthyStr tz then
    match resolveZone env (tz.getD "") with
    | none => .ok [("error", .str ("Invalid timezone: " ++ tz.getD ""))]
    | some zone => gdBody zone nowUtc format
  else
    gdBody localZone nowUtc format

/-- `f"{v} {unit}"` with the singular/plural choice the source makes. -/
def unitPhrase (v : Nat) (base : String) : String :=
  toString v ++ " " ++ (if v = 1 then base else base ++ "s")

/-- The dictionary `relative_time` returns on its success path, translated
line by line from the source.  `reference_echo` is `reference or "now"`.
`delta.days` of a Python timedelta is floor division of the total seconds
by 86400, which for a positive literal divisor is Lean's `Int` `/`. -/
def rtFields (date_str reference_echo : String) (target ref : DateTime) : ResultMap :=
  let total_seconds : Int := toSeconds target - toSeconds ref
  let is_future := 0 < total_seconds
  let abs_seconds : Nat := total_seconds.natAbs
  let days := abs_seconds / 86400
  let hours := abs_seconds % 86400 / 3600
  let minutes := abs_seconds % 3600 / 60
  let seconds := abs_seconds % 60
  let desc :=
    if 365 ≤ days then unitPhrase (days / 365) "year"
    else if 30 ≤ days then unitPhrase (days / 30) "month"
    else if 7 ≤ days then unitPhrase (days / 7) "week"
    else if 0 < days then unitPhrase days "day"
    else if 0 < hours then unitPhrase hours "hour"
    else if 0 < minutes then unitPhrase minutes "minute"
    else unitPhrase seconds "second"
  let relative :=
    if abs_seconds < 1 then "now"
    else if is_future then "in " ++ desc
    else desc ++ " ago"
  [("target", .str date_str),
   ("target_day_of_week", .str (dayNameOf target)),
   ("reference", .str reference_echo),
   ("relative", .str relative),
   ("days_difference", .int (total_seconds / 86400)),
   ("total_seconds", .int total_seconds)]

/-- `relative_time(date_str, reference)`; `now` models `datetime.now()`
for the defaulted-reference path. -/
def relative_time (now : DateTime) (date_str : String) (reference : Option String) :
    OpResult :=
  match firstParse rtFormats date_str with
  | none =>
    .ok [("error", .str ("Invalid date format: " ++ date_str ++
      ". Use YYYY-MM-DD or YYYY-MM-DDTHH:MM:SS."))]
  | some target =>
    if truthyStr reference then
      match firstParse rtFormats (reference.getD "") with
      | none =>
        .ok [("error", .str ("Invalid reference date format: " ++ reference.getD ""))]
      | some ref => .ok (rtFields date_str (reference.getD "") target ref)
    else
      .ok (rtFields date_str "now" target now)

/-- The success dictionary of `days_in_month`, fields in source order. -/
def dimFields (year month : Int) : ResultMap :=
  let y := year.toNat
  let m := month.toNat
  let num_days := daysInMonthN y m
  [("year", .int year),
   ("month", .int month),
   ("month_name", .str (monthName m)),
   ("days_in_month", .int num_days),
   ("first_day", .obj [("date", .str (renderDate y m 1)),
                       ("day_of_week", .str (dayNameYMD y m 1))]),
   ("last_day", .obj [("date", .str (renderDate y m num_days)),
                      ("day_of_week", .str (dayNameYMD y m num_days))]),
   ("is_leap_year", .bool (isLeapYearN y))]

/-- `days_in_month(year, month)`.  `year or now.year` / `month or
now.month` make 0 fall back to the clock.  The month range check precedes
the `datetime(year, month, 1)` construction, which raises (ValueError,
modelled as `.error`) for years outside 1..9999. -/
def days_in_month (now : DateTime) (year? month? : Option Int) : OpResult :=
  let year : Int := if truthyInt year? then year?.getD 0 else now.year
  let month : Int := if truthyInt month? then month?.getD 0 else now.month
  if ¬(1 ≤ month ∧ month ≤ 12) then
    .ok [("error", .str ("Invalid month: " ++ toString month ++ ". Must be 1-12."))]
  else if ¬(1 ≤ year ∧ year ≤ 9999) then
    .error "ValueError: year out of range"
  else
    .ok (dimFields year month)

/-- The per-zone sub-dictionary `convert_time` builds (`day_of_week`,
`datetime`, `timezone`, `utc_offset`). -/
def ctView (dt : DateTime) (tzName : String) (off : Int) : JValue :=
  .obj [("day_of_week", .str (dayNameOf dt)),
        ("datetime", .str (renderDT dt)),
        ("timezone", .str tzName),
        ("utc_offset", .str (zOffsetStr off))]

/-- `convert_time(time_str, from_tz, to_tz)`.  `astimezone` on the same
tzinfo object (equal name strings, since `ZoneInfo` caches per key) returns
`self`; otherwise it maps through UTC, raising OverflowError (modelled as
`.error`) when an intermediate or final instant leaves the representable
range. -/
def convert_time (env : String → Option Zone) (time_str from_tz to_tz : String) :
    OpResult :=
  match firstParse ctFormats time_str with
  | none => .ok [("error", .str ("Invalid time format: " ++ time_str))]
  | some dt =>
    match resolveZone env from_tz with
    | none => .ok [("error", .str ("Invalid timezone: " ++ from_tz))]
    | some source_zone =>
      match resolveZone env to_tz with
      | none => .ok [("error", .str ("Invalid timezone: " ++ to_tz))]
      | some target_zone =>
        let w := toSeconds dt
        let offFrom := source_zone.offsetAtLocal w
        if from_tz = to_tz then
          .ok [("from", ctView dt from_tz offFrom), ("to", ctView dt to_tz offFrom)]
        else
          let u := w - offFrom
          if u < minSec ∨ maxSec < u then .error "OverflowError" else
          let offTo := target_zone.offsetAtUtc u
          let t := u + offTo
          if t < minSec ∨ maxSec < t then .error "OverflowError" else
          .ok [("from", ctView dt from_tz offFrom),
               ("to", ctView (ofSeconds t) to_tz offTo)]

/-- The success dictionary of `get_week_year`, fields in source order. -/
def gwyFields (dt : DateTime) : ResultMap :=
  let iso := isoCalendarOf dt.year dt.month dt.day
  [("date", .str (renderDate dt.year dt.month dt.day)),
   ("day_of_week", .str (dayNameOf dt)),
   ("day_of_week_number", .int (isoWeekdayYMD dt.year dt.month dt.day)),
   ("week_number", .int ((dayOfYearOf dt.year dt.month dt.day - 1) / 7 + 1)),
   ("iso_week", .int iso.2),
   ("iso_year", .int iso.1),
   ("day_of_year", .int (dayOfYearOf dt.year dt.month dt.day)),
   ("days_remaining_in_year",
     .int ((toSeconds ⟨dt.year, 12, 31, 0, 0, 0⟩ - toSeconds dt) / 86400)),
   ("is_weekend", .bool (6 ≤ isoWeekdayYMD dt.year dt.month dt.day)),
   ("quarter", .int ((dt.month - 1) / 3 + 1))]

/-- Body of `get_week_year` once `dt` is fixed; the range test mirrors the
validation `datetime(dt.year, 12, 31)` performs. -/
def gwyBody (dt : DateTime) : OpResult :=
  if ¬(1 ≤ dt.year ∧ dt.year ≤ 9999) then .error "ValueError: year out of range"
  else .ok (gwyFields dt)

/-- `get_week_year(date_str)`; `now` models `datetime.now()` for the
defaulted path. -/
def get_week_year (now : DateTime) (date_str : Option String) : OpResult :=
  if truthyStr date_str then
    match parseWithFormat .ymd (date_str.getD "") with
    | none =>
      .ok [("error", .str ("Invalid date format: " ++ date_str.getD "" ++
        ". Use YYYY-MM-DD."))]
    | some dt => gwyBody dt
  else
    gwyBody now

/-! ## Claim-side definitions -/

/-- The unit-tier selection exactly as the specification words it: one unit,
largest first, integer thresholds on whole days (≥365 years, ≥30 months,
≥7 weeks, ≥1 days), below one day hours, then minutes, then seconds. -/
def claimTierDesc (absSeconds : Nat) : String :=
  let days := absSeconds / 86400
  let hours := absSeconds % 86400 / 3600
  let minutes := absSeconds % 3600 / 60
  let seconds := absSeconds % 60
  if 365 ≤ days then unitPhrase (days / 365) "year"
  else if 30 ≤ days then unitPhrase (days / 30) "month"
  else if 7 ≤ days then unitPhrase (days / 7) "week"
  else if 1 ≤ days then unitPhrase days "day"
  else if 0 < hours then unitPhrase hours "hour"
  else if 0 < minutes then unitPhrase minutes "minute"
  else unitPhrase seconds "second"

/-- No "error" key among the returned fields. -/
def noErrorKeyB (fs : ResultMap) : Bool := fs.all (fun p => p.1 != "error")

/-- The uniform failure contract of the five operations: a returned mapping
is either exactly the single-field error object or carries no "error" key;
an `.error` outcome is an escaped exception, not a returned value. -/
def wellFormedResult : OpResult → Prop
  | .error _ => True
  | .ok fs => (∃ msg, fs = [("error", JValue.str msg)]) ∨ noErrorKeyB fs = true

/-- UTC instant a zone-tagged wall-clock second maps to (what `astimezone`
computes first from `self - self.utcoffset()`). -/
def srcUtc (za : Zone) (w : Int) : Int := w - za.offsetAtLocal w

/-- Wall-clock seconds obtained by converting wall time `w` from zone `za`
to zone `zb` (the core of `astimezone`). -/
def convSeconds (za zb : Zone) (w : Int) : Int :=
  srcUtc za w + zb.offsetAtUtc (srcUtc za w)

/-- A zone with one fall-back transition, mirroring America/New_York around
2025-11-02: offset −4 h before 06:00 UTC, −5 h after; wall-clock times
before 02:00 read with fold 0 get the pre-transition offset −4 h (so the
01:00–02:00 hour is ambiguous and resolves to −4 h). -/
def fallZone : Zone where
  offsetAtLocal := fun w => if w < toSeconds ⟨2025, 11, 2, 2, 0, 0⟩ then -14400 else -18000
  offsetAtUtc := fun u => if u < toSeconds ⟨2025, 11, 2, 6, 0, 0⟩ then -14400 else -18000
  zstr := "America/New_York"

/-- A toy timezone database containing only the fall-back zone above. -/
def envNY : String → Option Zone :=
  fun name => if name = "America/New_York" then some fallZone else none

/-- A fixed-offset zone (UTC+1) for round-trip instances. -/
def plusOneZone : Zone := ⟨fun _ => 3600, fun _ => 3600, "Etc/GMT-1"⟩

/-- A toy timezone database containing only the fixed-offset zone above. -/
def envFixed : String → Option Zone :=
  fun name => if name = "Etc/GMT-1" then some plusOneZone else none

/-! ## Infrastructure lemmas -/


-- Lemma A: daysBeforeYear on the block decomposition
theorem dby_decomp (q a b c : Nat) (ha : a ≤ 3) (hb : b ≤ 24) (hc : c ≤ 3) :
    daysBeforeYear (400 * q + 100 * a + 4 * b + c + 1) =
      146097 * q + 36524 * a + 1461 * b + 365 * c := by
  simp only [daysBeforeYear]
  omega

-- Lemma B: every Nat year-index decomposes
theorem year_decomp (Y : Nat) :
    Y = 400 * (Y / 400) + 100 * (Y % 400 / 100) + 4 * (Y % 400 % 100 / 4) + Y % 4 ∧
      Y % 400 / 100 ≤ 3 ∧ Y % 400 % 100 / 4 ≤ 24 ∧ Y % 4 ≤ 3 := by
  omega

-- Lemma C: leap characterization on the decomposition
theorem leap_decomp (q a b c : Nat) (ha : a ≤ 3) (hb : b ≤ 24) (hc : c ≤ 3) :
    isLeapYearN (400 * q + 100 * a + 4 * b + c + 1) = (c == 3 && (b != 24 || a == 3)) := by
  rw [Bool.eq_iff_iff]
  simp only [isLeapYearN, Bool.and_eq_true, beq_iff_eq, bne_iff_ne, ne_eq, Bool.or_eq_true,
    decide_eq_true_eq]
  omega

set_option maxRecDepth 4000 in
theorem monthStage_sound : ∀ leap : Bool, ∀ r, r < 365 →
    1 ≤ (monthStage r leap).1 ∧ (monthStage r leap).1 ≤ 12 ∧
    1 ≤ (monthStage r leap).2 ∧
    (monthStage r leap).2 ≤ daysInMonthTab (monthStage r leap).1 +
      (if (monthStage r leap).1 = 2 && leap then 1 else 0) ∧
    daysBeforeMonthTab (monthStage r leap).1 +
      (if 2 < (monthStage r leap).1 && leap then 1 else 0) + (monthStage r leap).2 = r + 1 := by
  decide

set_option maxRecDepth 4000 in
theorem monthStage_complete : ∀ leap : Bool, ∀ m, m < 13 → ∀ d, d < 32 →
    1 ≤ m → 1 ≤ d → d ≤ daysInMonthTab m + (if m = 2 && leap then 1 else 0) →
    monthStage (daysBeforeMonthTab m + (if 2 < m && leap then 1 else 0) + d - 1) leap = (m, d) := by
  intro leap m hm d hd
  cases leap <;> interval_cases m <;> interval_cases d <;> decide



-- Dir2: ord2ymd is a right inverse of ymd2ord, with valid output fields
theorem ord2ymd_sound (N : Nat) (hN : 1 ≤ N) :
    ymd2ord (ord2ymd N).1 (ord2ymd N).2.1 (ord2ymd N).2.2 = N ∧
    1 ≤ (ord2ymd N).1 ∧ 1 ≤ (ord2ymd N).2.1 ∧ (ord2ymd N).2.1 ≤ 12 ∧
    1 ≤ (ord2ymd N).2.2 ∧ (ord2ymd N).2.2 ≤ daysInMonthN (ord2ymd N).1 (ord2ymd N).2.1 := by
  obtain ⟨n, rfl⟩ : ∃ n, N = n + 1 := ⟨N - 1, by omega⟩
  have hsub : n + 1 - 1 = n := by omega
  simp only [ord2ymd, hsub]
  split
  case isTrue hc =>
    rw [Bool.or_eq_true, decide_eq_true_eq, decide_eq_true_eq] at hc
    have h100 : n % 146097 / 36524 ≤ 4 := by omega
    have h4 : n % 146097 % 36524 / 1461 ≤ 24 := by omega
    rcases hc with hc1 | hc2
    · -- n1 = 4: r4 = 1460, n4 ≠ 24, n100 ≤ 3
      have h100' : n % 146097 / 36524 ≤ 3 := by omega
      have hY : n / 146097 * 400 + n % 146097 / 36524 * 100 + n % 146097 % 36524 / 1461 * 4 +
          n % 146097 % 36524 % 1461 / 365
          = 400 * (n / 146097) + 100 * (n % 146097 / 36524) +
            4 * (n % 146097 % 36524 / 1461) + 3 + 1 := by omega
      simp only [ymd2ord, daysBeforeMonthOf, daysInMonthN, hY,
        dby_decomp (n / 146097) (n % 146097 / 36524) (n % 146097 % 36524 / 1461) 3 h100' h4
          (by omega),
        leap_decomp (n / 146097) (n % 146097 / 36524) (n % 146097 % 36524 / 1461) 3 h100' h4
          (by omega)]
      have hb : ((3 : Nat) == 3 && ((n % 146097 % 36524 / 1461 : Nat) != 24 ||
          (n % 146097 / 36524 : Nat) == 3)) = true := by
        rw [Bool.and_eq_true, Bool.or_eq_true, beq_iff_eq, bne_iff_ne, beq_iff_eq]
        omega
      simp only [hb, daysBeforeMonthTab, daysInMonthTab]
      norm_num
      omega
    · -- n100 = 4: r400 = 146096, all lower quotients 0
      have hY : n / 146097 * 400 + n % 146097 / 36524 * 100 + n % 146097 % 36524 / 1461 * 4 +
          n % 146097 % 36524 % 1461 / 365
          = 400 * (n / 146097) + 100 * 3 + 4 * 24 + 3 + 1 := by omega
      simp only [ymd2ord, daysBeforeMonthOf, daysInMonthN, hY,
        dby_decomp (n / 146097) 3 24 3 (by omega) (by omega) (by omega),
        leap_decomp (n / 146097) 3 24 3 (by omega) (by omega) (by omega)]
      simp only [daysBeforeMonthTab, daysInMonthTab]
      norm_num
      omega
  case isFalse hc =>
    rw [Bool.or_eq_true, decide_eq_true_eq, decide_eq_true_eq] at hc
    push_neg at hc
    have h100 : n % 146097 / 36524 ≤ 3 := by omega
    have h4 : n % 146097 % 36524 / 1461 ≤ 24 := by omega
    have h1 : n % 146097 % 36524 % 1461 / 365 ≤ 3 := by omega
    have hr : n % 146097 % 36524 % 1461 % 365 < 365 := by omega
    obtain ⟨m1, m2, m3, m4, m5⟩ :=
      monthStage_sound ((n % 146097 % 36524 % 1461 / 365 : Nat) == 3 &&
        ((n % 146097 % 36524 / 1461 : Nat) != 24 || (n % 146097 / 36524 : Nat) == 3))
        (n % 146097 % 36524 % 1461 % 365) hr
    have hY : n / 146097 * 400 + n % 146097 / 36524 * 100 + n % 146097 % 36524 / 1461 * 4 +
        n % 146097 % 36524 % 1461 / 365 + 1
        = 400 * (n / 146097) + 100 * (n % 146097 / 36524) +
          4 * (n % 146097 % 36524 / 1461) + (n % 146097 % 36524 % 1461 / 365) + 1 := by omega
    simp only [ymd2ord, daysBeforeMonthOf, daysInMonthN, hY,
      dby_decomp (n / 146097) (n % 146097 / 36524) (n % 146097 % 36524 / 1461)
        (n % 146097 % 36524 % 1461 / 365) h100 h4 h1,
      leap_decomp (n / 146097) (n % 146097 / 36524) (n % 146097 % 36524 / 1461)
        (n % 146097 % 36524 % 1461 / 365) h100 h4 h1]
    refine ⟨by omega, by omega, m1, m2, m3, ?_⟩
    cases hq : (decide ((monthStage (n % 146097 % 36524 % 1461 % 365)
        ((n % 146097 % 36524 % 1461 / 365 : Nat) == 3 &&
          ((n % 146097 % 36524 / 1461 : Nat) != 24 || (n % 146097 / 36524 : Nat) == 3))).1 = 2) &&
        ((n % 146097 % 36524 % 1461 / 365 : Nat) == 3 &&
          ((n % 146097 % 36524 / 1461 : Nat) != 24 || (n % 146097 / 36524 : Nat) == 3)))
    · simp only [hq, if_false, Bool.false_eq_true] at m4 ⊢
      omega
    · have h2 : (monthStage (n % 146097 % 36524 % 1461 % 365)
          ((n % 146097 % 36524 % 1461 / 365 : Nat) == 3 &&
            ((n % 146097 % 36524 / 1461 : Nat) != 24 || (n % 146097 / 36524 : Nat) == 3))).1 = 2 := by
        have := hq
        rw [Bool.and_eq_true, decide_eq_true_eq] at this
        exact this.1
      simp only [hq, if_true] at m4 ⊢
      rw [h2] at m4
      simp only [daysInMonthTab] at m4
      omega



set_option maxRecDepth 4000 in
theorem doy_bound : ∀ leap : Bool, ∀ m, m < 13 → ∀ d, d < 32 → 1 ≤ m → 1 ≤ d →
    d ≤ daysInMonthTab m + (if m = 2 && leap then 1 else 0) →
    (daysBeforeMonthTab m + (if 2 < m && leap then 1 else 0) + d - 1 ≤ 364 ∨
     (daysBeforeMonthTab m + (if 2 < m && leap then 1 else 0) + d - 1 = 365 ∧
       m = 12 ∧ d = 31 ∧ leap = true)) := by
  intro leap m hm d hd
  cases leap <;> interval_cases m <;> interval_cases d <;> decide

theorem daysInMonthTab_le (m : Nat) : daysInMonthTab m ≤ 31 := by
  rcases m with _|_|_|_|_|_|_|_|_|_|_|_|_|m <;> simp [daysInMonthTab]

theorem daysInMonthN_le (y m : Nat) : daysInMonthN y m ≤ 31 := by
  unfold daysInMonthN
  split
  · omega
  · exact daysInMonthTab_le m

-- Dir1: ymd2ord followed by ord2ymd is the identity on valid dates
set_option maxHeartbeats 1600000 in
theorem ymd2ord_complete (y m d : Nat) (hy : 1 ≤ y) (hm1 : 1 ≤ m) (hm2 : m ≤ 12)
    (hd1 : 1 ≤ d) (hd2 : d ≤ daysInMonthN y m) :
    ord2ymd (ymd2ord y m d) = (y, m, d) := by
  obtain ⟨q, a, b, c, rfl, ha, hb, hc⟩ :
      ∃ q a b c, y = 400 * q + 100 * a + 4 * b + c + 1 ∧ a ≤ 3 ∧ b ≤ 24 ∧ c ≤ 3 :=
    ⟨(y - 1) / 400, (y - 1) % 400 / 100, (y - 1) % 400 % 100 / 4, (y - 1) % 4,
      by omega, by omega, by omega, by omega⟩
  have hd32 : d ≤ 31 := le_trans hd2 (daysInMonthN_le (400 * q + 100 * a + 4 * b + c + 1) m)
  have hLdef : isLeapYearN (400 * q + 100 * a + 4 * b + c + 1) =
      ((c : Nat) == 3 && ((b : Nat) != 24 || (a : Nat) == 3)) := leap_decomp q a b c ha hb hc
  have hdby : daysBeforeYear (400 * q + 100 * a + 4 * b + c + 1) =
      146097 * q + 36524 * a + 1461 * b + 365 * c := dby_decomp q a b c ha hb hc
  have hd2' : d ≤ daysInMonthTab m +
      (if m = 2 && ((c : Nat) == 3 && ((b : Nat) != 24 || (a : Nat) == 3)) then 1 else 0) := by
    revert hd2
    simp only [daysInMonthN, hLdef]
    by_cases hm2' : m = 2 <;>
      cases hLb : ((c : Nat) == 3 && ((b : Nat) != 24 || (a : Nat) == 3)) <;>
      simp [hm2', hLb, daysInMonthTab]
  have hmc := monthStage_complete ((c : Nat) == 3 && ((b : Nat) != 24 || (a : Nat) == 3))
    m (by omega) d (by omega) hm1 hd1 hd2'
  have hbound := doy_bound ((c : Nat) == 3 && ((b : Nat) != 24 || (a : Nat) == 3))
    m (by omega) d (by omega) hm1 hd1 hd2'
  have hord : ymd2ord (400 * q + 100 * a + 4 * b + c + 1) m d =
      146097 * q + 36524 * a + 1461 * b + 365 * c +
      (daysBeforeMonthTab m +
        (if 2 < m && ((c : Nat) == 3 && ((b : Nat) != 24 || (a : Nat) == 3)) then 1 else 0) +
        d - 1) + 1 := by
    simp only [ymd2ord, daysBeforeMonthOf, hdby, hLdef]
    omega
  rcases hbound with hmain | ⟨h365, hm12, hd31, hLtrue⟩
  · -- main case: day-of-year ≤ 364, no trailing-leap-day correction
    rw [hord]
    generalize hDg : daysBeforeMonthTab m +
      (if 2 < m && ((c : Nat) == 3 && ((b : Nat) != 24 || (a : Nat) == 3)) then 1 else 0) +
      d - 1 = D at hmain hmc
    simp only [ord2ymd]
    have e0 : 146097 * q + 36524 * a + 1461 * b + 365 * c + D + 1 - 1
        = 146097 * q + 36524 * a + 1461 * b + 365 * c + D := by omega
    rw [e0]
    have e1 : (146097 * q + 36524 * a + 1461 * b + 365 * c + D) / 146097 = q := by omega
    have e2 : (146097 * q + 36524 * a + 1461 * b + 365 * c + D) % 146097
        = 36524 * a + 1461 * b + 365 * c + D := by omega
    rw [e1, e2]
    have e3 : (36524 * a + 1461 * b + 365 * c + D) / 36524 = a := by omega
    have e4 : (36524 * a + 1461 * b + 365 * c + D) % 36524 = 1461 * b + 365 * c + D := by omega
    rw [e3, e4]
    have e5 : (1461 * b + 365 * c + D) / 1461 = b := by omega
    have e6 : (1461 * b + 365 * c + D) % 1461 = 365 * c + D := by omega
    rw [e5, e6]
    have e7 : (365 * c + D) / 365 = c := by omega
    have e8 : (365 * c + D) % 365 = D := by omega
    rw [e7, e8]
    split
    case isTrue hfour =>
      rw [Bool.or_eq_true, decide_eq_true_eq, decide_eq_true_eq] at hfour
      exfalso
      omega
    case isFalse hfour =>
      have hyear : q * 400 + a * 100 + b * 4 + c + 1 = 400 * q + 100 * a + 4 * b + c + 1 := by
        omega
      rw [hyear, hmc]
  · -- Dec 31 of a leap year: lands in the n1 = 4 or n100 = 4 correction branch
    rw [Bool.and_eq_true, Bool.or_eq_true, beq_iff_eq, bne_iff_ne, beq_iff_eq] at hLtrue
    subst hm12
    subst hd31
    by_cases hb24 : b = 24
    · -- century-boundary leap day: n100 = 4
      have ha3 : a = 3 := by
        rcases hLtrue.2 with h | h
        · exact absurd hb24 h
        · exact h
      subst hb24
      subst ha3
      have hc3 : c = 3 := hLtrue.1
      subst hc3
      have hNval : ymd2ord (400 * q + 100 * 3 + 4 * 24 + 3 + 1) 12 31
          = 146097 * q + 146097 := by
        rw [hord]
        omega
      rw [hNval]
      simp only [ord2ymd]
      have f0 : 146097 * q + 146097 - 1 = 146097 * q + 146096 := by omega
      rw [f0]
      have f1 : (146097 * q + 146096) / 146097 = q := by omega
      have f2 : (146097 * q + 146096) % 146097 = 146096 := by omega
      rw [f1, f2]
      norm_num [Prod.mk.injEq]
      omega
    · -- ordinary leap day: n1 = 4
      have hc3 : c = 3 := hLtrue.1
      subst hc3
      have hNval : ymd2ord (400 * q + 100 * a + 4 * b + 3 + 1) 12 31
          = 146097 * q + 36524 * a + 1461 * b + 1461 := by
        rw [hord]
        omega
      rw [hNval]
      simp only [ord2ymd]
      have hble : b ≤ 23 := by omega
      have f0 : 146097 * q + 36524 * a + 1461 * b + 1461 - 1
          = 146097 * q + 36524 * a + 1461 * b + 1460 := by omega
      rw [f0]
      have f1 : (146097 * q + 36524 * a + 1461 * b + 1460) / 146097 = q := by omega
      have f2 : (146097 * q + 36524 * a + 1461 * b + 1460) % 146097
          = 36524 * a + 1461 * b + 1460 := by omega
      rw [f1, f2]
      have f3 : (36524 * a + 1461 * b + 1460) / 36524 = a := by omega
      have f4 : (36524 * a + 1461 * b + 1460) % 36524 = 1461 * b + 1460 := by omega
      rw [f3, f4]
      have f5 : (1461 * b + 1460) / 1461 = b := by omega
      have f6 : (1461 * b + 1460) % 1461 = 1460 := by omega
      rw [f5, f6]
      norm_num [Prod.mk.injEq]
      omega



theorem dby_le_9999 (y : Nat) (h : y ≤ 9999) : daysBeforeYear y ≤ 3651694 := by
  simp only [daysBeforeYear]
  omega

theorem dby_le_9998 (y : Nat) (h : y ≤ 9998) : daysBeforeYear y ≤ 3651329 := by
  simp only [daysBeforeYear]
  omega

theorem dby_ge_10000 (y : Nat) (h : 10000 ≤ y) : 3652059 ≤ daysBeforeYear y := by
  simp only [daysBeforeYear]
  omega

/-- Convert the `daysInMonthN` bound into the table-plus-leap-bit form. -/
theorem dim_to_tab (y m d : Nat) (hd2 : d ≤ daysInMonthN y m) :
    d ≤ daysInMonthTab m + (if m = 2 && isLeapYearN y then 1 else 0) := by
  revert hd2
  simp only [daysInMonthN]
  by_cases hm2 : m = 2 <;> cases hL : isLeapYearN y <;> simp [hm2, hL, daysInMonthTab]

theorem ymd2ord_pos (y m d : Nat) (hd1 : 1 ≤ d) : 1 ≤ ymd2ord y m d := by
  simp only [ymd2ord]
  omega

set_option maxHeartbeats 800000 in
theorem ymd2ord_le (y m d : Nat) (hy1 : 1 ≤ y) (hy2 : y ≤ 9999) (hm1 : 1 ≤ m) (hm2 : m ≤ 12)
    (hd1 : 1 ≤ d) (hd2 : d ≤ daysInMonthN y m) : ymd2ord y m d ≤ 3652059 := by
  have hD := doy_bound (isLeapYearN y) m (by omega) d
    (by have := daysInMonthN_le y m; omega) hm1 hd1 (dim_to_tab y m d hd2)
  have hord : ymd2ord y m d = daysBeforeYear y +
      (daysBeforeMonthTab m + (if 2 < m && isLeapYearN y then 1 else 0) + d - 1) + 1 := by
    simp only [ymd2ord, daysBeforeMonthOf]
    omega
  rcases hD with hmain | ⟨h365, hm12, hd31, hLtrue⟩
  · have h9999 := dby_le_9999 y hy2
    omega
  · rcases Nat.lt_or_ge y 9999 with hlt | hge
    · have h9998 := dby_le_9998 y (by omega)
      omega
    · exfalso
      have hy9999 : y = 9999 := by omega
      rw [hy9999] at hLtrue
      have : isLeapYearN 9999 = false := by decide
      rw [this] at hLtrue
      exact Bool.false_ne_true hLtrue

theorem ord2ymd_year_le (N : Nat) (h1 : 1 ≤ N) (h2 : N ≤ 3652059) : (ord2ymd N).1 ≤ 9999 := by
  by_contra hgt
  push_neg at hgt
  obtain ⟨hord, hy1, hm1, hm2, hd1, hd2⟩ := ord2ymd_sound N h1
  have hmono := dby_ge_10000 (ord2ymd N).1 (by omega)
  have : 3652060 ≤ ymd2ord (ord2ymd N).1 (ord2ymd N).2.1 (ord2ymd N).2.2 := by
    simp only [ymd2ord]
    omega
  omega

/-- Validity of the fields produced by `toSeconds`-range instants. -/
theorem ofSeconds_valid (z : Int) (h1 : minSec ≤ z) (h2 : z ≤ maxSec) :
    1 ≤ (ofSeconds z).year ∧ (ofSeconds z).year ≤ 9999 ∧
    1 ≤ (ofSeconds z).month ∧ (ofSeconds z).month ≤ 12 ∧
    1 ≤ (ofSeconds z).day ∧ (ofSeconds z).day ≤ daysInMonthN (ofSeconds z).year (ofSeconds z).month ∧
    (ofSeconds z).hour ≤ 23 ∧ (ofSeconds z).minute ≤ 59 ∧ (ofSeconds z).second ≤ 59 := by
  have hmin : minSec = -62135596800 := by decide
  have hmax : maxSec = 253402300799 := by decide
  rw [hmin] at h1
  rw [hmax] at h2
  have ho1 : 1 ≤ (z / 86400 + (epochOrd : Int)).toNat := by
    simp only [epochOrd]
    omega
  have ho2 : (z / 86400 + (epochOrd : Int)).toNat ≤ 3652059 := by
    simp only [epochOrd]
    omega
  obtain ⟨hord, hy1, hm1, hm2, hd1, hd2⟩ := ord2ymd_sound _ ho1
  have hyle := ord2ymd_year_le _ ho1 ho2
  simp only [ofSeconds]
  refine ⟨hy1, hyle, hm1, hm2, hd1, hd2, by omega, by omega, by omega⟩

/-- `toSeconds` is a left inverse of `ofSeconds` on the representable range. -/
theorem toSeconds_ofSeconds (z : Int) (h1 : minSec ≤ z) (_h2 : z ≤ maxSec) :
    toSeconds (ofSeconds z) = z := by
  have hmin : minSec = -62135596800 := by decide
  rw [hmin] at h1
  have ho1 : 1 ≤ (z / 86400 + (epochOrd : Int)).toNat := by
    simp only [epochOrd]
    omega
  obtain ⟨hord, hy1, hm1, hm2, hd1, hd2⟩ := ord2ymd_sound _ ho1
  simp only [ofSeconds, toSeconds] at hord ⊢
  rw [hord]
  simp only [epochOrd]
  omega

/-- Bounds of `toSeconds` on valid datetimes. -/
theorem toSeconds_in_range (dt : DateTime) (hy1 : 1 ≤ dt.year) (hy2 : dt.year ≤ 9999)
    (hm1 : 1 ≤ dt.month) (hm2 : dt.month ≤ 12) (hd1 : 1 ≤ dt.day)
    (hd2 : dt.day ≤ daysInMonthN dt.year dt.month) (hh : dt.hour ≤ 23)
    (hmi : dt.minute ≤ 59) (hs : dt.second ≤ 59) :
    minSec ≤ toSeconds dt ∧ toSeconds dt ≤ maxSec := by
  have hle := ymd2ord_le dt.year dt.month dt.day hy1 hy2 hm1 hm2 hd1 hd2
  have hpos := ymd2ord_pos dt.year dt.month dt.day hd1
  have hmin : minSec = -62135596800 := by decide
  have hmax : maxSec = 253402300799 := by decide
  rw [hmin, hmax]
  simp only [toSeconds, epochOrd]
  omega

/-- `ofSeconds` is a left inverse of `toSeconds` on valid datetimes. -/
theorem ofSeconds_toSeconds (dt : DateTime) (hy1 : 1 ≤ dt.year) (hy2 : dt.year ≤ 9999)
    (hm1 : 1 ≤ dt.month) (hm2 : dt.month ≤ 12) (hd1 : 1 ≤ dt.day)
    (hd2 : dt.day ≤ daysInMonthN dt.year dt.month) (hh : dt.hour ≤ 23)
    (hmi : dt.minute ≤ 59) (hs : dt.second ≤ 59) :
    ofSeconds (toSeconds dt) = dt := by
  obtain ⟨y, m, d, h, mi, s⟩ := dt
  simp only at hy1 hy2 hm1 hm2 hd1 hd2 hh hmi hs
  have hcomp := ymd2ord_complete y m d hy1 hm1 hm2 hd1 hd2
  have hdiv : toSeconds ⟨y, m, d, h, mi, s⟩ / 86400 = (ymd2ord y m d : Int) - epochOrd := by
    simp only [toSeconds]
    omega
  have hmod : (toSeconds ⟨y, m, d, h, mi, s⟩ % 86400).toNat = 3600 * h + 60 * mi + s := by
    simp only [toSeconds]
    omega
  simp only [ofSeconds, hdiv, hmod]
  have ho : ((ymd2ord y m d : Int) - (epochOrd : Int) + (epochOrd : Int)).toNat = ymd2ord y m d := by
    omega
  rw [ho, hcomp]
  simp only [DateTime.mk.injEq, true_and]
  omega



/-! ### Parser field bounds -/

theorem digitVal_le (c : Char) (h : isDigitC c = true) : digitVal c ≤ 9 := by
  simp only [isDigitC, Bool.and_eq_true, decide_eq_true_eq] at h
  simp only [digitVal]
  omega

theorem tok4_bound (l rest : List Char) (v : Nat) (h : tok4 l = some (v, rest)) : v ≤ 9999 := by
  match l with
  | [] => simp [tok4] at h
  | [c1] => simp [tok4] at h
  | [c1, c2] => simp [tok4] at h
  | [c1, c2, c3] => simp [tok4] at h
  | c1 :: c2 :: c3 :: c4 :: r =>
    simp only [tok4] at h
    split at h
    case isTrue hd =>
      simp only [Option.some.injEq, Prod.mk.injEq] at h
      rw [Bool.and_eq_true, Bool.and_eq_true, Bool.and_eq_true] at hd
      have b1 := digitVal_le c1 hd.1.1.1
      have b2 := digitVal_le c2 hd.1.1.2
      have b3 := digitVal_le c3 hd.1.2
      have b4 := digitVal_le c4 hd.2
      omega
    case isFalse => simp at h

theorem tok21_bound (v2 v1 : Nat → Bool) (l rest : List Char) (v : Nat)
    (h : tok21 v2 v1 l = some (v, rest)) : v2 v = true ∨ (v1 v = true ∧ v ≤ 9) := by
  match l with
  | [] => simp [tok21] at h
  | [c1] =>
    simp only [tok21] at h
    split at h
    case isTrue hd =>
      simp only [Option.some.injEq, Prod.mk.injEq] at h
      rw [Bool.and_eq_true] at hd
      have := digitVal_le c1 hd.1
      exact Or.inr ⟨by rw [← h.1]; exact hd.2, by omega⟩
    case isFalse => simp at h
  | c1 :: c2 :: r =>
    simp only [tok21] at h
    split at h
    case isTrue hd =>
      simp only [Option.some.injEq, Prod.mk.injEq] at h
      rw [Bool.and_eq_true, Bool.and_eq_true] at hd
      exact Or.inl (by rw [← h.1]; exact hd.2)
    case isFalse =>
      split at h
      case isTrue hd =>
        simp only [Option.some.injEq, Prod.mk.injEq] at h
        rw [Bool.and_eq_true] at hd
        have := digitVal_le c1 hd.1
        exact Or.inr ⟨by rw [← h.1]; exact hd.2, by omega⟩
      case isFalse => simp at h

theorem parseDatePart_bound (l : List Char) (y mo d : Nat) (rest : List Char)
    (h : parseDatePart l = some (y, mo, d, rest)) :
    y ≤ 9999 ∧ 1 ≤ mo ∧ mo ≤ 12 ∧ 1 ≤ d ∧ d ≤ 31 := by
  simp only [parseDatePart] at h
  split at h
  · exact absurd h (by simp)
  case h_2 py l1 heq1 =>
    split at h
    · exact absurd h (by simp)
    case h_2 l2 heq2 =>
      split at h
      · exact absurd h (by simp)
      case h_2 pm l3 heq3 =>
        split at h
        · exact absurd h (by simp)
        case h_2 l4 heq4 =>
          split at h
          · exact absurd h (by simp)
          case h_2 pd l5 heq5 =>
            simp only [Option.some.injEq, Prod.mk.injEq] at h
            obtain ⟨hy, hmo, hd, hrest⟩ := h
            have h1 := tok4_bound l l1 py heq1
            have h2 := tok21_bound monthV2 oneNine l2 l3 pm heq3
            have h3 := tok21_bound dayV2 oneNine l4 l5 pd heq5
            simp only [monthV2, oneNine, dayV2, Bool.and_eq_true, decide_eq_true_eq] at h2 h3
            omega

theorem parseTimePart_bound (l : List Char) (hh mi s : Nat) (rest : List Char)
    (h : parseTimePart l = some (hh, mi, s, rest)) :
    hh ≤ 23 ∧ mi ≤ 59 ∧ s ≤ 61 := by
  simp only [parseTimePart] at h
  split at h
  · exact absurd h (by simp)
  case h_2 ph l1 heq1 =>
    split at h
    · exact absurd h (by simp)
    case h_2 l2 heq2 =>
      split at h
      · exact absurd h (by simp)
      case h_2 pm l3 heq3 =>
        split at h
        · exact absurd h (by simp)
        case h_2 l4 heq4 =>
          split at h
          · exact absurd h (by simp)
          case h_2 ps l5 heq5 =>
            simp only [Option.some.injEq, Prod.mk.injEq] at h
            obtain ⟨hy, hmo, hd, hrest⟩ := h
            have h1 := tok21_bound hourV2 anyDigit l l1 ph heq1
            have h2 := tok21_bound minuteV2 anyDigit l2 l3 pm heq3
            have h3 := tok21_bound secondV2 anyDigit l4 l5 ps heq5
            simp only [hourV2, minuteV2, secondV2, anyDigit, decide_eq_true_eq] at h1 h2 h3
            omega



theorem parseChars_bound (f : Fmt) (l : List Char) (r : RawDT) (rest : List Char)
    (h : parseChars f l = some (r, rest)) :
    r.y ≤ 9999 ∧ 1 ≤ r.mo ∧ r.mo ≤ 12 ∧ 1 ≤ r.d ∧ r.d ≤ 31 ∧
    r.h ≤ 23 ∧ r.mi ≤ 59 ∧ r.s ≤ 61 := by
  cases f
  case ymd =>
    simp only [parseChars] at h
    split at h
    · exact absurd h (by simp)
    case h_2 py pm pd l1 heq =>
      simp only [Option.some.injEq, Prod.mk.injEq] at h
      obtain ⟨hr, hrest⟩ := h
      obtain ⟨h1, h2, h3, h4, h5⟩ := parseDatePart_bound l py pm pd l1 heq
      rw [← hr]
      exact ⟨h1, h2, h3, h4, h5, Nat.zero_le _, Nat.zero_le _, Nat.zero_le _⟩
  all_goals
    simp only [parseChars, parseDateTimeChars] at h
    split at h
    · exact absurd h (by simp)
    case h_2 py pm pd l1 heq =>
      split at h
      · exact absurd h (by simp)
      case h_2 l2 heq2 =>
        split at h
        · exact absurd h (by simp)
        case h_2 ph pmi ps l3 heq3 =>
          simp only [Option.some.injEq, Prod.mk.injEq] at h
          obtain ⟨hr, hrest⟩ := h
          obtain ⟨h1, h2, h3, h4, h5⟩ := parseDatePart_bound l py pm pd l1 heq
          obtain ⟨h6, h7, h8⟩ := parseTimePart_bound l2 ph pmi ps l3 heq3
          rw [← hr]
          exact ⟨h1, h2, h3, h4, h5, h6, h7, h8⟩

/-- Fields of a successfully parsed datetime satisfy the `datetime`
invariants. -/
theorem parseWithFormat_valid (f : Fmt) (s : String) (dt : DateTime)
    (h : parseWithFormat f s = some dt) :
    1 ≤ dt.year ∧ dt.year ≤ 9999 ∧ 1 ≤ dt.month ∧ dt.month ≤ 12 ∧
    1 ≤ dt.day ∧ dt.day ≤ daysInMonthN dt.year dt.month ∧
    dt.hour ≤ 23 ∧ dt.minute ≤ 59 ∧ dt.second ≤ 59 := by
  simp only [parseWithFormat] at h
  split at h
  case h_1 r heq =>
    obtain ⟨b1, b2, b3, b4, b5, b6, b7, b8⟩ := parseChars_bound f s.data r [] heq
    split at h
    case isTrue hcheck =>
      rw [Bool.and_eq_true, Bool.and_eq_true, decide_eq_true_eq, decide_eq_true_eq,
        decide_eq_true_eq] at hcheck
      simp only [Option.some.injEq] at h
      rw [← h]
      exact ⟨hcheck.1.1, b1, b2, b3, b4, hcheck.1.2, b6, b7, hcheck.2⟩
    case isFalse => exact absurd h (by simp)
  case h_2 => exact absurd h (by simp)

theorem firstParse_valid (fmts : List Fmt) (s : String) (dt : DateTime)
    (h : firstParse fmts s = some dt) :
    1 ≤ dt.year ∧ dt.year ≤ 9999 ∧ 1 ≤ dt.month ∧ dt.month ≤ 12 ∧
    1 ≤ dt.day ∧ dt.day ≤ daysInMonthN dt.year dt.month ∧
    dt.hour ≤ 23 ∧ dt.minute ≤ 59 ∧ dt.second ≤ 59 := by
  induction fmts with
  | nil => exact absurd h (by simp [firstParse])
  | cons f rest ih =>
    simp only [firstParse] at h
    split at h
    case h_1 dt2 heq =>
      simp only [Option.some.injEq] at h
      rw [← h]
      exact parseWithFormat_valid f s dt2 heq
    case h_2 => exact ih h

/-! ### Re-parsing canonical renders -/

theorem digitChar_toNat (n : Nat) (h : n ≤ 9) : (digitChar n).toNat = 48 + n := by
  interval_cases n <;> decide

theorem isDigitC_digitChar (n : Nat) (h : n ≤ 9) : isDigitC (digitChar n) = true := by
  interval_cases n <;> decide

theorem digitVal_digitChar (n : Nat) (h : n ≤ 9) : digitVal (digitChar n) = n := by
  interval_cases n <;> decide

theorem tok4_pad (y : Nat) (h : y ≤ 9999) (rest : List Char) :
    tok4 (pad4L y ++ rest) = some (y, rest) := by
  simp only [pad4L, List.cons_append, List.nil_append, tok4,
    isDigitC_digitChar (y / 1000) (by omega), isDigitC_digitChar (y / 100 % 10) (by omega),
    isDigitC_digitChar (y / 10 % 10) (by omega), isDigitC_digitChar (y % 10) (by omega),
    Bool.and_self, if_true,
    digitVal_digitChar (y / 1000) (by omega), digitVal_digitChar (y / 100 % 10) (by omega),
    digitVal_digitChar (y / 10 % 10) (by omega), digitVal_digitChar (y % 10) (by omega)]
  have : ((y / 1000 * 10 + y / 100 % 10) * 10 + y / 10 % 10) * 10 + y % 10 = y := by omega
  rw [this]

theorem tok21_pad (v : Nat) (hv : v ≤ 99) (v2 v1 : Nat → Bool) (h2 : v2 v = true)
    (rest : List Char) : tok21 v2 v1 (pad2L v ++ rest) = some (v, rest) := by
  have hval : digitVal (digitChar (v / 10)) * 10 + digitVal (digitChar (v % 10)) = v := by
    rw [digitVal_digitChar (v / 10) (by omega), digitVal_digitChar (v % 10) (by omega)]
    omega
  simp only [pad2L, List.cons_append, List.nil_append, tok21,
    isDigitC_digitChar (v / 10) (by omega), isDigitC_digitChar (v % 10) (by omega),
    Bool.true_and, hval, h2, if_true]

theorem expectC_cons (c : Char) (rest : List Char) : expectC c (c :: rest) = some rest := by
  simp [expectC]



theorem data_mk (l : List Char) : (String.mk l).data = l := rfl

/-- Re-parsing the canonical `%Y-%m-%d %H:%M:%S` render of a valid datetime
with a four-digit year recovers it (first format of `convert_time`). -/
theorem parseWithFormat_renderDT (dt : DateTime) (hy1 : 1000 ≤ dt.year) (hy2 : dt.year ≤ 9999)
    (hm1 : 1 ≤ dt.month) (hm2 : dt.month ≤ 12) (hd1 : 1 ≤ dt.day)
    (hd2 : dt.day ≤ daysInMonthN dt.year dt.month) (hh : dt.hour ≤ 23)
    (hmi : dt.minute ≤ 59) (hs : dt.second ≤ 59) :
    parseWithFormat .ymdSpace (renderDT dt) = some dt := by
  obtain ⟨y, m, d, h, mi, s⟩ := dt
  simp only at hy1 hy2 hm1 hm2 hd1 hd2 hh hmi hs
  have hd31 : d ≤ 31 := le_trans hd2 (daysInMonthN_le y m)
  have hyd : yearDigitsL y = pad4L y := by
    unfold yearDigitsL
    rw [if_neg (by omega), if_neg (by omega), if_neg (by omega)]
  have hmv : monthV2 m = true := by
    simp only [monthV2, Bool.and_eq_true, decide_eq_true_eq]
    omega
  have hdv : dayV2 d = true := by
    simp only [dayV2, Bool.and_eq_true, decide_eq_true_eq]
    omega
  have hhv : hourV2 h = true := by
    simp only [hourV2, decide_eq_true_eq]
    omega
  have hmiv : minuteV2 mi = true := by
    simp only [minuteV2, decide_eq_true_eq]
    omega
  have hsv : secondV2 s = true := by
    simp only [secondV2, decide_eq_true_eq]
    omega
  have hcond : (decide (1 ≤ y) && decide (d ≤ daysInMonthN y m) && decide (s ≤ 59)) = true := by
    simp only [Bool.and_eq_true, decide_eq_true_eq]
    omega
  have hlast : tok21 secondV2 anyDigit (pad2L s) = some (s, []) := by
    have h0 := tok21_pad s (by omega) secondV2 anyDigit hsv []
    simpa using h0
  simp only [renderDT, renderDateL, renderTimeL, hyd, parseWithFormat, data_mk,
    List.cons_append, List.append_assoc, parseChars, parseDateTimeChars, parseDatePart,
    parseTimePart,
    tok4_pad y hy2, expectC_cons,
    tok21_pad m (by omega) monthV2 oneNine hmv,
    tok21_pad d (by omega) dayV2 oneNine hdv,
    tok21_pad h (by omega) hourV2 anyDigit hhv,
    tok21_pad mi (by omega) minuteV2 anyDigit hmiv,
    hlast,
    hcond, if_true]

/-- Hence `convert_time`'s format list accepts the canonical render with its
first format. -/
theorem firstParse_renderDT (dt : DateTime) (hy1 : 1000 ≤ dt.year) (hy2 : dt.year ≤ 9999)
    (hm1 : 1 ≤ dt.month) (hm2 : dt.month ≤ 12) (hd1 : 1 ≤ dt.day)
    (hd2 : dt.day ≤ daysInMonthN dt.year dt.month) (hh : dt.hour ≤ 23)
    (hmi : dt.minute ≤ 59) (hs : dt.second ≤ 59) :
    firstParse ctFormats (renderDT dt) = some dt := by
  simp only [ctFormats, firstParse,
    parseWithFormat_renderDT dt hy1 hy2 hm1 hm2 hd1 hd2 hh hmi hs]




/-! ## Helper lemmas for the claims -/

theorem truthyStr_some (r : String) (h : r ≠ "") : truthyStr (some r) = true := by
  simp [truthyStr, h]

theorem truthyInt_some (n : Int) (h : n ≠ 0) : truthyInt (some n) = true := by
  simp [truthyInt, h]

/-- `relative_time` on the parseable, explicit-reference path. -/
theorem relative_time_ok (now : DateTime) (s r : String) (target ref : DateTime)
    (hs : firstParse rtFormats s = some target) (hr : firstParse rtFormats r = some ref)
    (hne : r ≠ "") :
    relative_time now s (some r) = .ok (rtFields s r target ref) := by
  simp only [relative_time, hs, truthyStr_some r hne, if_true, Option.getD, hr]

theorem rtFields_relative (s r : String) (target ref : DateTime) :
    getField (rtFields s r target ref) "relative" = some (.str (
      if (toSeconds target - toSeconds ref).natAbs < 1 then "now"
      else if 0 < toSeconds target - toSeconds ref
        then "in " ++ claimTierDesc (toSeconds target - toSeconds ref).natAbs
        else claimTierDesc (toSeconds target - toSeconds ref).natAbs ++ " ago")) := rfl



/-! ## The claims -/

/-- C10: with a parseable-or-not `date_str` and a non-empty `reference`
string supplied, `relative_time` never reads the clock: its result is the
same function of the two strings at any two clock values. -/
theorem relative_time_deterministic (now1 now2 : DateTime) (s r : String) (h : r ≠ "") :
    relative_time now1 s (some r) = relative_time now2 s (some r) := by
  simp only [relative_time, truthyStr_some r h, if_true]

/-- C10 witness at concrete arguments and two different clocks. -/
theorem relative_time_deterministic_witness :
    relative_time ⟨2025, 1, 1, 0, 0, 0⟩ "2024-03-05" (some "2024-01-01") =
      relative_time ⟨1999, 12, 31, 23, 59, 59⟩ "2024-03-05" (some "2024-01-01") :=
  relative_time_deterministic ⟨2025, 1, 1, 0, 0, 0⟩ ⟨1999, 12, 31, 23, 59, 59⟩
    "2024-03-05" "2024-01-01" (by decide)

/-- C1 (amended): `days_difference` is the floor (rounding toward negative
infinity) of the signed delta divided by 86400, as Python's
`timedelta.days` is defined — not truncation toward zero.  The two agree
for non-negative deltas, but every delta strictly between −86400 and 0
gives −1, not 0. -/
theorem relative_time_days_difference_floor (now : DateTime) (s r : String)
    (target ref : DateTime)
    (hs : firstParse rtFormats s = some target) (hr : firstParse rtFormats r = some ref)
    (hne : r ≠ "") :
    ∃ fs, relative_time now s (some r) = .ok fs ∧
      getField fs "days_difference" =
        some (.int ((toSeconds target - toSeconds ref) / 86400)) ∧
      (0 ≤ toSeconds target - toSeconds ref →
        (toSeconds target - toSeconds ref) / 86400 =
          ((toSeconds target - toSeconds ref).toNat / 86400 : Nat)) ∧
      (-86400 < toSeconds target - toSeconds ref → toSeconds target - toSeconds ref < 0 →
        (toSeconds target - toSeconds ref) / 86400 = -1) :=
  ⟨rtFields s r target ref, relative_time_ok now s r target ref hs hr hne, rfl,
    fun h => by omega, fun h1 h2 => by omega⟩

/-- C1 witness: one day apart, floor and truncation agree. -/
theorem relative_time_days_difference_floor_witness :
    ∃ fs, relative_time ⟨2025, 1, 1, 0, 0, 0⟩ "2024-01-02" (some "2024-01-01") = .ok fs ∧
      getField fs "days_difference" =
        some (.int ((toSeconds ⟨2024, 1, 2, 0, 0, 0⟩ - toSeconds ⟨2024, 1, 1, 0, 0, 0⟩) / 86400)) ∧
      (0 ≤ toSeconds ⟨2024, 1, 2, 0, 0, 0⟩ - toSeconds ⟨2024, 1, 1, 0, 0, 0⟩ →
        (toSeconds ⟨2024, 1, 2, 0, 0, 0⟩ - toSeconds ⟨2024, 1, 1, 0, 0, 0⟩) / 86400 =
          ((toSeconds ⟨2024, 1, 2, 0, 0, 0⟩ - toSeconds ⟨2024, 1, 1, 0, 0, 0⟩).toNat / 86400 : Nat)) ∧
      (-86400 < toSeconds ⟨2024, 1, 2, 0, 0, 0⟩ - toSeconds ⟨2024, 1, 1, 0, 0, 0⟩ →
        toSeconds ⟨2024, 1, 2, 0, 0, 0⟩ - toSeconds ⟨2024, 1, 1, 0, 0, 0⟩ < 0 →
        (toSeconds ⟨2024, 1, 2, 0, 0, 0⟩ - toSeconds ⟨2024, 1, 1, 0, 0, 0⟩) / 86400 = -1) :=
  relative_time_days_difference_floor ⟨2025, 1, 1, 0, 0, 0⟩ "2024-01-02" "2024-01-01"
    ⟨2024, 1, 2, 0, 0, 0⟩ ⟨2024, 1, 1, 0, 0, 0⟩ rfl rfl (by decide)

/-- C1 counterexample: target one second before the reference (delta −1 s,
strictly between −86400 and 0) yields `days_difference` −1 where the claim
as stated demands 0. -/
theorem relative_time_days_difference_counterexample :
    (relative_time ⟨2025, 1, 1, 0, 0, 0⟩ "2024-01-01" (some "2024-01-01 00:00:01")).map
        (fun fs => getField fs "days_difference") = .ok (some (.int (-1))) ∧
    (relative_time ⟨2025, 1, 1, 0, 0, 0⟩ "2024-01-01" (some "2024-01-01 00:00:01")).map
        (fun fs => getField fs "total_seconds") = .ok (some (.int (-1))) ∧
    (-86400 : Int) < -1 ∧ (-1 : Int) < 0 ∧ (-1 : Int) ≠ 0 :=
  ⟨rfl, rfl, by decide, by decide, by decide⟩

/-- C4 (amended): every month argument outside [1, 12] other than 0 gets
the error mapping; month 0, being falsy in Python, instead falls back to
the current month exactly as an omitted argument does. -/
theorem days_in_month_invalid_month_error (now : DateTime) (year? : Option Int) (m : Int)
    (h1 : ¬(1 ≤ m ∧ m ≤ 12)) (h2 : m ≠ 0) :
    days_in_month now year? (some m) =
      .ok [("error", .str ("Invalid month: " ++ toString m ++ ". Must be 1-12."))] := by
  simp only [days_in_month, truthyInt_some m h2, if_true, Option.getD, if_pos h1]

/-- C4 witness at month 13 and month −1. -/
theorem days_in_month_invalid_month_error_witness :
    days_in_month ⟨2025, 10, 11, 14, 30, 5⟩ (some 2025) (some 13) =
      .ok [("error", .str ("Invalid month: " ++ toString (13 : Int) ++ ". Must be 1-12."))] ∧
    days_in_month ⟨2025, 10, 11, 14, 30, 5⟩ none (some (-1)) =
      .ok [("error", .str ("Invalid month: " ++ toString (-1 : Int) ++ ". Must be 1-12."))] :=
  ⟨days_in_month_invalid_month_error ⟨2025, 10, 11, 14, 30, 5⟩ (some 2025) 13
      (by omega) (by omega),
    days_in_month_invalid_month_error ⟨2025, 10, 11, 14, 30, 5⟩ none (-1)
      (by omega) (by omega)⟩

/-- C4 counterexample: month 0 (not in [1, 12]) does not produce the error
mapping; with the clock at 2025-10-11 it reports October 2025. -/
theorem days_in_month_month_zero_counterexample :
    days_in_month ⟨2025, 10, 11, 14, 30, 5⟩ (some 2025) (some 0) =
      .ok [("year", .int 2025), ("month", .int 10), ("month_name", .str "October"),
           ("days_in_month", .int 31),
           ("first_day", .obj [("date", .str "2025-10-01"), ("day_of_week", .str "Wednesday")]),
           ("last_day", .obj [("date", .str "2025-10-31"), ("day_of_week", .str "Friday")]),
           ("is_leap_year", .bool false)] ∧
    (days_in_month ⟨2025, 10, 11, 14, 30, 5⟩ (some 2025) (some 0)).map
        (fun fs => getField fs "error") = .ok none :=
  ⟨rfl, rfl⟩


theorem claimTierDesc_shape (a : Nat) :
    ∃ v base, base ∈ ["year", "month", "week", "day", "hour", "minute", "second"] ∧
      claimTierDesc a = toString v ++ " " ++ (if v = 1 then base else base ++ "s") := by
  simp only [claimTierDesc]
  split
  · exact ⟨_, "year", by simp, rfl⟩
  split
  · exact ⟨_, "month", by simp, rfl⟩
  split
  · exact ⟨_, "week", by simp, rfl⟩
  split
  · exact ⟨_, "day", by simp, rfl⟩
  split
  · exact ⟨_, "hour", by simp, rfl⟩
  split
  · exact ⟨_, "minute", by simp, rfl⟩
  · exact ⟨_, "second", by simp, rfl⟩

/-- C2: the phrase uses exactly one unit tier, selected largest-first from
the whole-day count of the absolute delta by the claim's integer
thresholds (`claimTierDesc`), and the boundary cases come out as the
specification states: exactly 7 days is "1 week" and 6 days 23:59:59 is
"6 days". -/
theorem relative_time_single_tier (now : DateTime) (s r : String) (target ref : DateTime)
    (hs : firstParse rtFormats s = some target) (hr : firstParse rtFormats r = some ref)
    (hne : r ≠ "") :
    (∃ fs, relative_time now s (some r) = .ok fs ∧
      (1 ≤ (toSeconds target - toSeconds ref).natAbs →
        getField fs "relative" = some (.str
          (if 0 < toSeconds target - toSeconds ref
           then "in " ++ claimTierDesc (toSeconds target - toSeconds ref).natAbs
           else claimTierDesc (toSeconds target - toSeconds ref).natAbs ++ " ago")))) ∧
    (relative_time now "2024-01-08" (some "2024-01-01")).map
      (fun fs => getField fs "relative") = .ok (some (.str "in 1 week")) ∧
    (relative_time now "2024-01-07T23:59:59" (some "2024-01-01T00:00:00")).map
      (fun fs => getField fs "relative") = .ok (some (.str "in 6 days")) := by
  refine ⟨⟨rtFields s r target ref, relative_time_ok now s r target ref hs hr hne, ?_⟩,
    rfl, rfl⟩
  intro habs
  rw [rtFields_relative, if_neg (by omega)]

/-- C2 witness: 2192 whole days ahead gives the single tier "in 6 years". -/
theorem relative_time_single_tier_witness :
    ((∃ fs, relative_time ⟨2025, 1, 1, 0, 0, 0⟩ "2030-01-01" (some "2024-01-01") = .ok fs ∧
      (1 ≤ (toSeconds ⟨2030, 1, 1, 0, 0, 0⟩ - toSeconds ⟨2024, 1, 1, 0, 0, 0⟩).natAbs →
        getField fs "relative" = some (.str
          (if 0 < toSeconds ⟨2030, 1, 1, 0, 0, 0⟩ - toSeconds ⟨2024, 1, 1, 0, 0, 0⟩
           then "in " ++ claimTierDesc
             (toSeconds ⟨2030, 1, 1, 0, 0, 0⟩ - toSeconds ⟨2024, 1, 1, 0, 0, 0⟩).natAbs
           else claimTierDesc
             (toSeconds ⟨2030, 1, 1, 0, 0, 0⟩ - toSeconds ⟨2024, 1, 1, 0, 0, 0⟩).natAbs
             ++ " ago")))) ∧
    (relative_time ⟨2025, 1, 1, 0, 0, 0⟩ "2024-01-08" (some "2024-01-01")).map
      (fun fs => getField fs "relative") = .ok (some (.str "in 1 week")) ∧
    (relative_time ⟨2025, 1, 1, 0, 0, 0⟩ "2024-01-07T23:59:59" (some "2024-01-01T00:00:00")).map
      (fun fs => getField fs "relative") = .ok (some (.str "in 6 days"))) ∧
    claimTierDesc (toSeconds ⟨2030, 1, 1, 0, 0, 0⟩ - toSeconds ⟨2024, 1, 1, 0, 0, 0⟩).natAbs
      = "6 years" :=
  ⟨relative_time_single_tier ⟨2025, 1, 1, 0, 0, 0⟩ "2030-01-01" "2024-01-01"
      ⟨2030, 1, 1, 0, 0, 0⟩ ⟨2024, 1, 1, 0, 0, 0⟩ rfl rfl (by decide), by decide⟩

/-- C3: the phrase is "in {value} {unit}" for a strictly positive delta and
"{value} {unit} ago" otherwise, with the singular unit name exactly when
the value is 1, except that any delta of magnitude below one second
renders as the literal "now" regardless of sign. -/
theorem relative_time_phrase_form (now : DateTime) (s r : String) (target ref : DateTime)
    (hs : firstParse rtFormats s = some target) (hr : firstParse rtFormats r = some ref)
    (hne : r ≠ "") :
    ∃ fs, relative_time now s (some r) = .ok fs ∧
    ∃ phrase, getField fs "relative" = some (.str phrase) ∧
      ((toSeconds target - toSeconds ref).natAbs < 1 → phrase = "now") ∧
      (1 ≤ (toSeconds target - toSeconds ref).natAbs →
        ∃ v base, base ∈ ["year", "month", "week", "day", "hour", "minute", "second"] ∧
          (v = 1 ↔ (if v = 1 then base else base ++ "s") = base) ∧
          phrase = (if 0 < toSeconds target - toSeconds ref
            then "in " ++ (toString v ++ " " ++ (if v = 1 then base else base ++ "s"))
            else toString v ++ " " ++ (if v = 1 then base else base ++ "s") ++ " ago")) := by
  refine ⟨rtFields s r target ref, relative_time_ok now s r target ref hs hr hne,
    _, rtFields_relative s r target ref, ?_, ?_⟩
  · intro habs
    rw [if_pos habs]
  · intro habs
    rw [if_neg (by omega)]
    obtain ⟨v, base, hmem, hshape⟩ :=
      claimTierDesc_shape (toSeconds target - toSeconds ref).natAbs
    refine ⟨v, base, hmem, ?_, ?_⟩
    · by_cases hv : v = 1
      · simp [hv]
      · simp only [if_neg hv]
        constructor
        · intro h
          exact absurd h hv
        · intro h
          exfalso
          have : base.length ≠ (base ++ "s").length := by
            simp only [String.length_append]
            have hs1 : "s".length = 1 := rfl
            omega
          exact this (by rw [h])
    · by_cases hf : 0 < toSeconds target - toSeconds ref
      · rw [if_pos hf, if_pos hf, hshape]
      · rw [if_neg hf, if_neg hf, hshape]

/-- C3 witness: +1 second is "in 1 second" (singular), −1 second is
"1 second ago", 0 is "now". -/
theorem relative_time_phrase_form_witness :
    (∃ fs, relative_time ⟨2025, 1, 1, 0, 0, 0⟩ "2024-01-01 00:00:01" (some "2024-01-01") = .ok fs ∧
    ∃ phrase, getField fs "relative" = some (.str phrase) ∧
      ((toSeconds ⟨2024, 1, 1, 0, 0, 1⟩ - toSeconds ⟨2024, 1, 1, 0, 0, 0⟩).natAbs < 1 →
        phrase = "now") ∧
      (1 ≤ (toSeconds ⟨2024, 1, 1, 0, 0, 1⟩ - toSeconds ⟨2024, 1, 1, 0, 0, 0⟩).natAbs →
        ∃ v base, base ∈ ["year", "month", "week", "day", "hour", "minute", "second"] ∧
          (v = 1 ↔ (if v = 1 then base else base ++ "s") = base) ∧
          phrase = (if 0 < toSeconds ⟨2024, 1, 1, 0, 0, 1⟩ - toSeconds ⟨2024, 1, 1, 0, 0, 0⟩
            then "in " ++ (toString v ++ " " ++ (if v = 1 then base else base ++ "s"))
            else toString v ++ " " ++ (if v = 1 then base else base ++ "s") ++ " ago"))) ∧
    (relative_time ⟨2025, 1, 1, 0, 0, 0⟩ "2024-01-01" (some "2024-01-01 00:00:01")).map
      (fun fs => getField fs "relative") = .ok (some (.str "1 second ago")) ∧
    (relative_time ⟨2025, 1, 1, 0, 0, 0⟩ "2024-01-01" (some "2024-01-01")).map
      (fun fs => getField fs "relative") = .ok (some (.str "now")) ∧
    (relative_time ⟨2025, 1, 1, 0, 0, 0⟩ "2024-01-01 00:00:01" (some "2024-01-01")).map
      (fun fs => getField fs "relative") = .ok (some (.str "in 1 second")) :=
  ⟨relative_time_phrase_form ⟨2025, 1, 1, 0, 0, 0⟩ "2024-01-01 00:00:01" "2024-01-01"
      ⟨2024, 1, 1, 0, 0, 1⟩ ⟨2024, 1, 1, 0, 0, 0⟩ rfl rfl (by decide), rfl, rfl, rfl⟩

theorem isLeap_int (y : Int) (hy : 1 ≤ y) :
    isLeapYearN y.toNat = true ↔ (y % 4 = 0 ∧ (y % 100 ≠ 0 ∨ y % 400 = 0)) := by
  simp only [isLeapYearN, Bool.and_eq_true, beq_iff_eq, Bool.or_eq_true, bne_iff_ne, ne_eq]
  omega

/-- C5 (amended): for every year in [1, 9999] (the range `datetime`
represents; year 0 is falsy and falls back to the clock, years outside the
range raise) and every month in [1, 12], the reported `days_in_month`
matches the Gregorian table with February 29 exactly when the leap formula
holds, and `is_leap_year` is true iff
`year % 4 == 0 and (year % 100 != 0 or year % 400 == 0)`. -/
theorem days_in_month_gregorian (now : DateTime) (y m : Int)
    (hy1 : 1 ≤ y) (hy2 : y ≤ 9999) (hm1 : 1 ≤ m) (hm2 : m ≤ 12) :
    ∃ fs, days_in_month now (some y) (some m) = .ok fs ∧
      getField fs "is_leap_year" = some (.bool (isLeapYearN y.toNat)) ∧
      (isLeapYearN y.toNat = true ↔ (y % 4 = 0 ∧ (y % 100 ≠ 0 ∨ y % 400 = 0))) ∧
      getField fs "days_in_month" = some (.int (daysInMonthN y.toNat m.toNat)) ∧
      (daysInMonthN y.toNat m.toNat : Int) =
        (if m = 2 then (if y % 4 = 0 ∧ (y % 100 ≠ 0 ∨ y % 400 = 0) then 29 else 28)
         else if m = 4 ∨ m = 6 ∨ m = 9 ∨ m = 11 then 30 else 31) ∧
      (m = 2 → (daysInMonthN y.toNat m.toNat = 29 ↔ isLeapYearN y.toNat = true)) := by
  have heq : days_in_month now (some y) (some m) = .ok (dimFields y m) := by
    simp only [days_in_month, truthyInt_some y (by omega), truthyInt_some m (by omega),
      if_true, Option.getD]
    rw [if_neg (by omega), if_neg (by omega)]
  refine ⟨dimFields y m, heq, rfl, isLeap_int y hy1, rfl, ?_, ?_⟩
  · rcases eq_or_ne m 2 with hm | hm
    · subst hm
      rw [if_pos rfl]
      have hmn : (2 : Int).toNat = 2 := rfl
      rw [hmn]
      simp only [daysInMonthN]
      cases hL : isLeapYearN y.toNat
      · rw [if_neg (by simp [hL]), if_neg (by rw [← isLeap_int y hy1]; simp [hL])]
        rfl
      · rw [if_pos (by simp [hL]), if_pos (by rw [← isLeap_int y hy1]; exact hL)]
        rfl
    · rw [if_neg hm]
      have hmn : ¬(m.toNat = 2) := by omega
      have hfalse : (decide (m.toNat = 2) && isLeapYearN y.toNat) = false := by
        simp [hmn]
      simp only [daysInMonthN, hfalse, Bool.false_eq_true, if_false]
      interval_cases m <;> simp_all <;> rfl
  · intro hm
    subst hm
    have hmn : (2 : Int).toNat = 2 := rfl
    rw [hmn]
    simp only [daysInMonthN]
    cases hL : isLeapYearN y.toNat
    · rw [if_neg (by simp [hL])]
      simp [daysInMonthTab]
    · rw [if_pos (by simp [hL])]
      simp

/-- C5 witness at February 2024 (leap) and February 1900 (not leap). -/
theorem days_in_month_gregorian_witness :
    (∃ fs, days_in_month ⟨2025, 10, 11, 14, 30, 5⟩ (some 2024) (some 2) = .ok fs ∧
      getField fs "is_leap_year" = some (.bool (isLeapYearN (2024 : Int).toNat)) ∧
      (isLeapYearN (2024 : Int).toNat = true ↔
        ((2024 : Int) % 4 = 0 ∧ ((2024 : Int) % 100 ≠ 0 ∨ (2024 : Int) % 400 = 0))) ∧
      getField fs "days_in_month" = some (.int (daysInMonthN (2024 : Int).toNat (2 : Int).toNat)) ∧
      (daysInMonthN (2024 : Int).toNat (2 : Int).toNat : Int) =
        (if (2 : Int) = 2 then
          (if (2024 : Int) % 4 = 0 ∧ ((2024 : Int) % 100 ≠ 0 ∨ (2024 : Int) % 400 = 0)
           then 29 else 28)
         else if (2 : Int) = 4 ∨ (2 : Int) = 6 ∨ (2 : Int) = 9 ∨ (2 : Int) = 11 then 30 else 31) ∧
      ((2 : Int) = 2 → (daysInMonthN (2024 : Int).toNat (2 : Int).toNat = 29 ↔
        isLeapYearN (2024 : Int).toNat = true))) ∧
    daysInMonthN 2024 2 = 29 ∧ daysInMonthN 1900 2 = 28 ∧ isLeapYearN 2000 = true ∧
    isLeapYearN 2023 = false :=
  ⟨days_in_month_gregorian ⟨2025, 10, 11, 14, 30, 5⟩ 2024 2
      (by decide) (by decide) (by decide) (by decide), by decide, by decide, by decide, by decide⟩

/-- C5 counterexample: at input year 0 (with the clock in 2025) the
returned leap flag is false and February reports 28 days, although the
claimed formula holds of year 0 (0 % 4 = 0 and 0 % 400 = 0) and so demands
29; the code silently substituted the clock year 2025. -/
theorem days_in_month_year_zero_counterexample :
    (days_in_month ⟨2025, 10, 11, 14, 30, 5⟩ (some 0) (some 2)).map
        (fun fs => getField fs "is_leap_year") = .ok (some (.bool false)) ∧
    (days_in_month ⟨2025, 10, 11, 14, 30, 5⟩ (some 0) (some 2)).map
        (fun fs => getField fs "days_in_month") = .ok (some (.int 28)) ∧
    (days_in_month ⟨2025, 10, 11, 14, 30, 5⟩ (some 0) (some 2)).map
        (fun fs => getField fs "year") = .ok (some (.int 2025)) ∧
    ((0 : Int) % 4 = 0 ∧ ((0 : Int) % 100 ≠ 0 ∨ (0 : Int) % 400 = 0)) :=
  ⟨rfl, rfl, rfl, by decide⟩

theorem gdBody_wf (zone : Zone) (nowUtc : Int) (format : Option String) :
    wellFormedResult (gdBody zone nowUtc format) := by
  simp only [gdBody]
  split
  · exact Or.inr rfl
  split
  · exact Or.inr rfl
  split
  · exact Or.inr rfl
  · exact Or.inr rfl

theorem dim_branch_wf (year month : Int) :
    wellFormedResult (if ¬(1 ≤ month ∧ month ≤ 12) then
        .ok [("error", .str ("Invalid month: " ++ toString month ++ ". Must be 1-12."))]
      else if ¬(1 ≤ year ∧ year ≤ 9999) then .error "ValueError: year out of range"
      else .ok (dimFields year month)) := by
  split
  · exact Or.inl ⟨_, rfl⟩
  split
  · trivial
  · exact Or.inr rfl

theorem gwyBody_wf (dt : DateTime) : wellFormedResult (gwyBody dt) := by
  simp only [gwyBody]
  split
  · trivial
  · exact Or.inr rfl

/-- C6: across all five operations, every returned mapping is either
exactly the single-field error object (the uniform failure contract) or
contains no "error" key at all, so the presence of the "error" key
discriminates failure from success; escaped exceptions return no mapping. -/
theorem uniform_error_contract :
    (∀ (env : String → Option Zone) (lz : Zone) (nowUtc : Int) (tz format : Option String),
      wellFormedResult (get_datetime env lz nowUtc tz format)) ∧
    (∀ (now : DateTime) (s : String) (ref : Option String),
      wellFormedResult (relative_time now s ref)) ∧
    (∀ (now : DateTime) (y m : Option Int), wellFormedResult (days_in_month now y m)) ∧
    (∀ (env : String → Option Zone) (s a b : String),
      wellFormedResult (convert_time env s a b)) ∧
    (∀ (now : DateTime) (s : Option String), wellFormedResult (get_week_year now s)) := by
  refine ⟨?_, ?_, ?_, ?_, ?_⟩
  · intro env lz nowUtc tz format
    simp only [get_datetime]
    split
    · split
      · exact Or.inl ⟨_, rfl⟩
      · exact gdBody_wf _ _ _
    · exact gdBody_wf _ _ _
  · intro now s ref
    simp only [relative_time]
    split
    · exact Or.inl ⟨_, rfl⟩
    · split
      · split
        · exact Or.inl ⟨_, rfl⟩
        · exact Or.inr rfl
      · exact Or.inr rfl
  · intro now y m
    simp only [days_in_month]
    exact dim_branch_wf _ _
  · intro env s a b
    simp only [convert_time]
    split
    · exact Or.inl ⟨_, rfl⟩
    split
    · exact Or.inl ⟨_, rfl⟩
    split
    · exact Or.inl ⟨_, rfl⟩
    split
    · exact Or.inr rfl
    split
    · trivial
    split
    · trivial
    · exact Or.inr rfl
  · intro now s
    simp only [get_week_year]
    split
    · split
      · exact Or.inl ⟨_, rfl⟩
      · exact gwyBody_wf _
    · exact gwyBody_wf _

/-- C7: date/time parsing tries the operation's format list in order and
returns the first format's result; a successful `parseWithFormat` consumed
the entire string (empty regex remainder); and when no format matches,
`relative_time` and `convert_time` return the error mapping whose message
embeds the offending input, never an escaped exception. -/
theorem parse_first_match_contract :
    (∀ (fmts : List Fmt) (s : String) (dt : DateTime), firstParse fmts s = some dt →
      ∃ i, ∃ h : i < fmts.length,
        parseWithFormat (fmts.get ⟨i, h⟩) s = some dt ∧
        ∀ f ∈ fmts.take i, parseWithFormat f s = none) ∧
    (∀ (fmts : List Fmt) (s : String), firstParse fmts s = none →
      ∀ f ∈ fmts, parseWithFormat f s = none) ∧
    (∀ (f : Fmt) (s : String) (dt : DateTime), parseWithFormat f s = some dt →
      ∃ r : RawDT, parseChars f s.data = some (r, [])) ∧
    (∀ (now : DateTime) (s : String) (ref : Option String), firstParse rtFormats s = none →
      relative_time now s ref = .ok [("error", .str ("Invalid date format: " ++ s ++
        ". Use YYYY-MM-DD or YYYY-MM-DDTHH:MM:SS."))]) ∧
    (∀ (env : String → Option Zone) (s a b : String), firstParse ctFormats s = none →
      convert_time env s a b = .ok [("error", .str ("Invalid time format: " ++ s))]) := by
  refine ⟨?_, ?_, ?_, ?_, ?_⟩
  · intro fmts
    induction fmts with
    | nil => intro s dt h; exact absurd h (by simp [firstParse])
    | cons f rest ih =>
      intro s dt h
      simp only [firstParse] at h
      split at h
      case h_1 dt2 heq =>
        simp only [Option.some.injEq] at h
        exact ⟨0, by simp, by simpa [heq] using h, by simp⟩
      case h_2 heq =>
        obtain ⟨i, hlen, hparse, hprev⟩ := ih s dt h
        refine ⟨i + 1, by simpa using Nat.succ_lt_succ hlen, hparse, ?_⟩
        intro g hg
        rw [List.take_succ_cons] at hg
        rcases List.mem_cons.mp hg with hgf | hgrest
        · rw [hgf]
          exact heq
        · exact hprev g hgrest
  · intro fmts
    induction fmts with
    | nil => intro s h g hg; exact absurd hg (by simp)
    | cons f rest ih =>
      intro s h g hg
      simp only [firstParse] at h
      split at h
      case h_1 dt2 heq => exact absurd h (by simp)
      case h_2 heq =>
        rcases List.mem_cons.mp hg with hgf | hgrest
        · rw [hgf]
          exact heq
        · exact ih s h g hgrest
  · intro f s dt h
    simp only [parseWithFormat] at h
    split at h
    case h_1 r heq => exact ⟨r, heq⟩
    case h_2 => exact absurd h (by simp)
  · intro now s ref h
    simp only [relative_time, h]
  · intro env s a b h
    simp only [convert_time, h]

/-- C7 witness: "2024-01-05T10:20:30" is parsed by the second format of
`relative_time`'s list after the date-only format fails; "not-a-date"
matches nothing and both operations return the error mapping carrying it. -/
theorem parse_first_match_contract_witness :
    (∃ i, ∃ h : i < rtFormats.length,
        parseWithFormat (rtFormats.get ⟨i, h⟩) "2024-01-05T10:20:30" =
          some ⟨2024, 1, 5, 10, 20, 30⟩ ∧
        ∀ f ∈ rtFormats.take i, parseWithFormat f "2024-01-05T10:20:30" = none) ∧
    (∃ r : RawDT, parseChars .ymdT "2024-01-05T10:20:30".data = some (r, [])) ∧
    relative_time ⟨2025, 1, 1, 0, 0, 0⟩ "not-a-date" none =
      .ok [("error", .str ("Invalid date format: " ++ "not-a-date" ++
        ". Use YYYY-MM-DD or YYYY-MM-DDTHH:MM:SS."))] ∧
    convert_time envNY "not-a-date" "UTC" "UTC" =
      .ok [("error", .str ("Invalid time format: " ++ "not-a-date"))] :=
  ⟨parse_first_match_contract.1 rtFormats "2024-01-05T10:20:30" ⟨2024, 1, 5, 10, 20, 30⟩ rfl,
    parse_first_match_contract.2.2.1 .ymdT "2024-01-05T10:20:30" ⟨2024, 1, 5, 10, 20, 30⟩ rfl,
    parse_first_match_contract.2.2.2.1 ⟨2025, 1, 1, 0, 0, 0⟩ "not-a-date" none rfl,
    parse_first_match_contract.2.2.2.2 envNY "not-a-date" "UTC" "UTC" rfl⟩

theorem parseWithFormat_ymd_time (s : String) (dt : DateTime)
    (h : parseWithFormat .ymd s = some dt) :
    dt.hour = 0 ∧ dt.minute = 0 ∧ dt.second = 0 := by
  simp only [parseWithFormat, parseChars] at h
  split at h
  case h_1 r heq =>
    split at h
    case isTrue =>
      simp only [Option.some.injEq] at h
      split at heq
      · exact absurd heq (by simp)
      case h_2 py pm pd l1 hdp =>
        simp only [Option.some.injEq, Prod.mk.injEq] at heq
        rw [← h, ← heq.1]
        exact ⟨rfl, rfl, rfl⟩
    case isFalse => exact absurd h (by simp)
  case h_2 => exact absurd h (by simp)

/-- C9: for a valid `YYYY-MM-DD` input, `get_week_year` reports the simple
week number `((dayOfYear − 1) / 7) + 1` (distinct from `iso_week`, which
follows the ISO-8601 algorithm), the ISO weekday number 1 = Monday..7 =
Sunday with the day name drawn from the Monday-first table, the weekend
flag exactly when that number is ≥ 6, the quarter `((month − 1) / 3) + 1`,
and `days_remaining_in_year` as the whole-day ordinal difference to
December 31 of the same year. -/
theorem get_week_year_fields (now : DateTime) (s : String) (dt : DateTime)
    (hp : parseWithFormat .ymd s = some dt) (hne : s ≠ "") :
    ∃ fs, get_week_year now (some s) = .ok fs ∧
      getField fs "week_number" =
        some (.int ((dayOfYearOf dt.year dt.month dt.day - 1) / 7 + 1)) ∧
      getField fs "iso_week" = some (.int (isoCalendarOf dt.year dt.month dt.day).2) ∧
      getField fs "iso_year" = some (.int (isoCalendarOf dt.year dt.month dt.day).1) ∧
      getField fs "day_of_week_number" =
        some (.int (isoWeekdayYMD dt.year dt.month dt.day)) ∧
      (1 ≤ isoWeekdayYMD dt.year dt.month dt.day ∧
        isoWeekdayYMD dt.year dt.month dt.day ≤ 7) ∧
      getField fs "day_of_week" =
        some (.str (dayNames.getD (isoWeekdayYMD dt.year dt.month dt.day - 1) "")) ∧
      getField fs "is_weekend" =
        some (.bool (decide (6 ≤ isoWeekdayYMD dt.year dt.month dt.day))) ∧
      getField fs "quarter" = some (.int ((dt.month - 1) / 3 + 1)) ∧
      getField fs "days_remaining_in_year" =
        some (.int ((ymd2ord dt.year 12 31 : Int) - ymd2ord dt.year dt.month dt.day)) := by
  obtain ⟨hy1, hy2, _, _, _, _, _, _, _⟩ := parseWithFormat_valid .ymd s dt hp
  obtain ⟨hh0, hmi0, hs0⟩ := parseWithFormat_ymd_time s dt hp
  have heq : get_week_year now (some s) = .ok (gwyFields dt) := by
    simp only [get_week_year, truthyStr_some s hne, if_true, Option.getD, hp, gwyBody]
    rw [if_neg (by omega)]
  have hdrem : (toSeconds ⟨dt.year, 12, 31, 0, 0, 0⟩ - toSeconds dt) / 86400 =
      (ymd2ord dt.year 12 31 : Int) - ymd2ord dt.year dt.month dt.day := by
    simp only [toSeconds, hh0, hmi0, hs0]
    omega
  refine ⟨_, heq, rfl, rfl, rfl, rfl, ?_, rfl, rfl, rfl, ?_⟩
  · simp only [isoWeekdayYMD]
    omega
  · have hfield : getField (gwyFields dt) "days_remaining_in_year" =
        some (.int ((toSeconds ⟨dt.year, 12, 31, 0, 0, 0⟩ - toSeconds dt) / 86400)) := rfl
    rw [hfield, hdrem]

/-- C9 witness at 2024-01-01 (Monday, ISO week 1 of 2024, simple week 1,
quarter 1, 365 days remaining). -/
theorem get_week_year_fields_witness :
    (∃ fs, get_week_year ⟨2025, 10, 11, 14, 30, 5⟩ (some "2024-01-01") = .ok fs ∧
      getField fs "week_number" =
        some (.int ((dayOfYearOf (2024 : Nat) 1 1 - 1) / 7 + 1)) ∧
      getField fs "iso_week" = some (.int (isoCalendarOf 2024 1 1).2) ∧
      getField fs "iso_year" = some (.int (isoCalendarOf 2024 1 1).1) ∧
      getField fs "day_of_week_number" = some (.int (isoWeekdayYMD 2024 1 1)) ∧
      (1 ≤ isoWeekdayYMD 2024 1 1 ∧ isoWeekdayYMD 2024 1 1 ≤ 7) ∧
      getField fs "day_of_week" =
        some (.str (dayNames.getD (isoWeekdayYMD 2024 1 1 - 1) "")) ∧
      getField fs "is_weekend" = some (.bool (decide (6 ≤ isoWeekdayYMD 2024 1 1))) ∧
      getField fs "quarter" = some (.int (((1 : Nat) - 1) / 3 + 1)) ∧
      getField fs "days_remaining_in_year" =
        some (.int ((ymd2ord 2024 12 31 : Int) - ymd2ord 2024 1 1))) ∧
    isoCalendarOf 2024 1 1 = (2024, 1) ∧ isoWeekdayYMD 2024 1 1 = 1 ∧
    (ymd2ord 2024 12 31 : Int) - ymd2ord 2024 1 1 = 365 :=
  ⟨get_week_year_fields ⟨2025, 10, 11, 14, 30, 5⟩ "2024-01-01" ⟨2024, 1, 1, 0, 0, 0⟩
      rfl (by decide), by decide, by decide, by decide⟩

/-- `convert_time` on the fully successful, distinct-zones path. -/
theorem convert_time_ok (env : String → Option Zone) (time_str a b : String)
    (dt : DateTime) (za zb : Zone)
    (hp : firstParse ctFormats time_str = some dt)
    (hza : resolveZone env a = some za) (hzb : resolveZone env b = some zb)
    (hab : a ≠ b)
    (hu1 : minSec ≤ srcUtc za (toSeconds dt)) (hu2 : srcUtc za (toSeconds dt) ≤ maxSec)
    (ht1 : minSec ≤ convSeconds za zb (toSeconds dt))
    (ht2 : convSeconds za zb (toSeconds dt) ≤ maxSec) :
    convert_time env time_str a b =
      .ok [("from", ctView dt a (za.offsetAtLocal (toSeconds dt))),
           ("to", ctView (ofSeconds (convSeconds za zb (toSeconds dt))) b
             (zb.offsetAtUtc (srcUtc za (toSeconds dt))))] := by
  simp only [convert_time, hp, hza, hzb, if_neg hab]
  rw [if_neg (by simp only [srcUtc] at hu1 hu2; push_neg; omega)]
  rw [if_neg (by simp only [convSeconds, srcUtc] at ht1 ht2; push_neg; omega)]
  rfl

/-- C8 counterexample: with the DST fall-back zone (America/New_York around
2025-11-02), converting 2025-11-02 06:30:00 UTC to New York yields
01:30:00, an ambiguous wall-clock reading; converting that text back
resolves the fold to the pre-transition offset and lands on 05:30:00 UTC,
not the original 06:30:00. -/
theorem convert_time_round_trip_counterexample :
    (convert_time envNY "2025-11-02 06:30:00" "UTC" "America/New_York").map
        (fun fs => getField fs "to") =
      .ok (some (ctView ⟨2025, 11, 2, 1, 30, 0⟩ "America/New_York" (-18000))) ∧
    (convert_time envNY "2025-11-02 01:30:00" "America/New_York" "UTC").map
        (fun fs => getField fs "to") =
      .ok (some (ctView ⟨2025, 11, 2, 5, 30, 0⟩ "UTC" 0)) ∧
    renderDT ⟨2025, 11, 2, 5, 30, 0⟩ ≠ renderDT ⟨2025, 11, 2, 6, 30, 0⟩ ∧
    (convert_time envNY "2025-11-02 06:30:00" "UTC" "America/New_York").map
        (fun fs => getField fs "from") =
      .ok (some (ctView ⟨2025, 11, 2, 6, 30, 0⟩ "UTC" 0)) :=
  ⟨rfl, rfl, by decide, rfl⟩

theorem getField_pair_to (vF vT : JValue) :
    getField [("from", vF), ("to", vT)] "to" = some vT := rfl

/-- C8 (amended): the text round trip A → B → A restores the original
wall-clock fields provided the zones are offset-coherent at the two
instants involved — the produced wall-clock time in B must not lie in a
DST fold or gap (its fold-0 offset equals the offset `fromutc` applied),
and likewise for the original reading in A — and the intermediate instants
stay within `datetime`'s range with a four-digit intermediate year.  Fixed
offset zones satisfy the coherence hypotheses everywhere; real DST zones
violate them inside folds (see the counterexample). -/
theorem convert_time_round_trip (env : String → Option Zone) (a b time_str : String)
    (dt : DateTime) (za zb : Zone)
    (hp : firstParse ctFormats time_str = some dt)
    (hza : resolveZone env a = some za) (hzb : resolveZone env b = some zb)
    (hab : a ≠ b)
    (hu1 : minSec ≤ srcUtc za (toSeconds dt)) (hu2 : srcUtc za (toSeconds dt) ≤ maxSec)
    (ht1 : minSec ≤ convSeconds za zb (toSeconds dt))
    (ht2 : convSeconds za zb (toSeconds dt) ≤ maxSec)
    (hy1000 : 1000 ≤ (ofSeconds (convSeconds za zb (toSeconds dt))).year)
    (hfoldB : zb.offsetAtLocal (convSeconds za zb (toSeconds dt)) =
      zb.offsetAtUtc (srcUtc za (toSeconds dt)))
    (hfoldA : za.offsetAtUtc (srcUtc za (toSeconds dt)) = za.offsetAtLocal (toSeconds dt)) :
    ∃ m1 m2,
      convert_time env time_str a b = .ok m1 ∧
      getField m1 "from" = some (ctView dt a (za.offsetAtLocal (toSeconds dt))) ∧
      getField m1 "to" = some (ctView (ofSeconds (convSeconds za zb (toSeconds dt))) b
        (zb.offsetAtUtc (srcUtc za (toSeconds dt)))) ∧
      convert_time env (renderDT (ofSeconds (convSeconds za zb (toSeconds dt)))) b a = .ok m2 ∧
      getField m2 "to" = some (ctView dt a (za.offsetAtLocal (toSeconds dt))) := by
  obtain ⟨hv1, hv2, hv3, hv4, hv5, hv6, hv7, hv8, hv9⟩ :=
    firstParse_valid ctFormats time_str dt hp
  have hw := toSeconds_in_range dt hv1 hv2 hv3 hv4 hv5 hv6 hv7 hv8 hv9
  obtain ⟨ho1, ho2, ho3, ho4, ho5, ho6, ho7, ho8, ho9⟩ :=
    ofSeconds_valid (convSeconds za zb (toSeconds dt)) ht1 ht2
  have hts : toSeconds (ofSeconds (convSeconds za zb (toSeconds dt))) =
      convSeconds za zb (toSeconds dt) := toSeconds_ofSeconds _ ht1 ht2
  have hparse2 : firstParse ctFormats (renderDT (ofSeconds (convSeconds za zb (toSeconds dt)))) =
      some (ofSeconds (convSeconds za zb (toSeconds dt))) :=
    firstParse_renderDT _ hy1000 ho2 ho3 ho4 ho5 ho6 ho7 ho8 ho9
  have hu2eq : srcUtc zb (toSeconds (ofSeconds (convSeconds za zb (toSeconds dt)))) =
      srcUtc za (toSeconds dt) := by
    rw [show srcUtc zb (toSeconds (ofSeconds (convSeconds za zb (toSeconds dt)))) =
      toSeconds (ofSeconds (convSeconds za zb (toSeconds dt))) -
        zb.offsetAtLocal (toSeconds (ofSeconds (convSeconds za zb (toSeconds dt)))) from rfl]
    rw [hts, hfoldB]
    show srcUtc za (toSeconds dt) + zb.offsetAtUtc (srcUtc za (toSeconds dt)) -
      zb.offsetAtUtc (srcUtc za (toSeconds dt)) = srcUtc za (toSeconds dt)
    omega
  have ht2eq : convSeconds zb za (toSeconds (ofSeconds (convSeconds za zb (toSeconds dt)))) =
      toSeconds dt := by
    show srcUtc zb (toSeconds (ofSeconds (convSeconds za zb (toSeconds dt)))) +
      za.offsetAtUtc (srcUtc zb (toSeconds (ofSeconds (convSeconds za zb (toSeconds dt))))) =
      toSeconds dt
    rw [hu2eq, hfoldA]
    show toSeconds dt - za.offsetAtLocal (toSeconds dt) + za.offsetAtLocal (toSeconds dt) =
      toSeconds dt
    omega
  have hc1 := convert_time_ok env time_str a b dt za zb hp hza hzb hab hu1 hu2 ht1 ht2
  have hc2 := convert_time_ok env (renderDT (ofSeconds (convSeconds za zb (toSeconds dt)))) b a
    (ofSeconds (convSeconds za zb (toSeconds dt))) zb za hparse2 hzb hza (Ne.symm hab)
    (by rw [hu2eq]; exact hu1) (by rw [hu2eq]; exact hu2)
    (by rw [ht2eq]; exact hw.1) (by rw [ht2eq]; exact hw.2)
  refine ⟨_, _, hc1, rfl, rfl, hc2, ?_⟩
  have hofs : ofSeconds (convSeconds zb za
      (toSeconds (ofSeconds (convSeconds za zb (toSeconds dt))))) = dt := by
    rw [ht2eq]
    exact ofSeconds_toSeconds dt hv1 hv2 hv3 hv4 hv5 hv6 hv7 hv8 hv9
  have hoffs : za.offsetAtUtc (srcUtc zb
      (toSeconds (ofSeconds (convSeconds za zb (toSeconds dt))))) =
      za.offsetAtLocal (toSeconds dt) := by
    rw [hu2eq, hfoldA]
  rw [getField_pair_to, hofs, hoffs]

set_option maxRecDepth 8000 in
theorem convert_time_round_trip_witness :
    ∃ m1 m2,
      convert_time envFixed "2024-06-15 12:00:00" "UTC" "Etc/GMT-1" = .ok m1 ∧
      getField m1 "from" = some (ctView ⟨2024, 6, 15, 12, 0, 0⟩ "UTC"
        (utcZone.offsetAtLocal (toSeconds ⟨2024, 6, 15, 12, 0, 0⟩))) ∧
      getField m1 "to" = some (ctView (ofSeconds (convSeconds utcZone plusOneZone
        (toSeconds ⟨2024, 6, 15, 12, 0, 0⟩))) "Etc/GMT-1"
        (plusOneZone.offsetAtUtc (srcUtc utcZone (toSeconds ⟨2024, 6, 15, 12, 0, 0⟩)))) ∧
      convert_time envFixed (renderDT (ofSeconds (convSeconds utcZone plusOneZone
        (toSeconds ⟨2024, 6, 15, 12, 0, 0⟩)))) "Etc/GMT-1" "UTC" = .ok m2 ∧
      getField m2 "to" = some (ctView ⟨2024, 6, 15, 12, 0, 0⟩ "UTC"
        (utcZone.offsetAtLocal (toSeconds ⟨2024, 6, 15, 12, 0, 0⟩))) :=
  convert_time_round_trip envFixed "UTC" "Etc/GMT-1" "2024-06-15 12:00:00"
    ⟨2024, 6, 15, 12, 0, 0⟩ utcZone plusOneZone
    rfl rfl rfl (by decide)
    (by decide) (by decide) (by decide) (by decide) (by decide) rfl rfl

end DateTimeDay
